import Mathlib

/-!
# Wordy-Birdy: the friend-request lifecycle

A shallow embedding of the server controllers of the repository
(`server/src/Controllers/user.js`, `server/src/Controllers/auth.js`,
`server/src/Controllers/chat.js`, `server/src/middleware/auth.js`,
`server/src/lib/stream.js`, `server/src/Models/User.js`) over an explicit model
of the two collections of the document store, and of the route table of the
client (`client/src/App.jsx`).

Conventions of the embedding:

* a collection is a list of documents in insertion order; `findById` and
  `findOne` return the first match and `findByIdAndUpdate` rewrites the first
  match, as the store does on a collection whose `_id` is unique;
* an `ObjectId` is twelve bytes, kept as twenty-four hex nibbles; its string
  form is lower-case hex and a string casts to an `ObjectId` when it consists of
  twenty-four hex digits of either case, a failed cast raising `CastError`;
* every controller is a function from the store and the request to the
  response and the new store; an exception caught by the controller's
  `catch` block is the 500 response with the store as it was;
* values chosen outside the controllers (generated ids, the random avatar
  index, the outcome of a call to the chat provider) are arguments;
* the `createdAt` / `updatedAt` timestamps, the session cookie and console
  output are left out.

The controllers are embedded a second time, under `WithFaults`, with every
awaited call to the store or to the chat provider explicit and able to raise
on its own account; the second embedding is proved to coincide with the first
when no call does.
-/

namespace WordyBirdy

/-! ## Object ids -/

/-- A document id: twelve bytes, written as twenty-four hex nibbles. -/
structure ObjectId where
  nibbles : List (Fin 16)
  size_eq : nibbles.length = 24
deriving DecidableEq

/-- The lower-case hex digit of a nibble. -/
def hexDigit (d : Fin 16) : Char :=
  if d.val < 10 then Char.ofNat (48 + d.val) else Char.ofNat (87 + d.val)

/-- The value of a hex digit of either case; `none` for any other character. -/
def hexValue (c : Char) : Option (Fin 16) :=
  let n := c.toNat
  if h₁ : 48 ≤ n ∧ n ≤ 57 then some ⟨n - 48, by omega⟩
  else if h₂ : 97 ≤ n ∧ n ≤ 102 then some ⟨n - 87, by omega⟩
  else if h₃ : 65 ≤ n ∧ n ≤ 70 then some ⟨n - 55, by omega⟩
  else none

/-- The `toString()` of an id, which is also what the `id` virtual of a
document returns: twenty-four lower-case hex digits. -/
def ObjectId.toHexString (i : ObjectId) : String :=
  String.mk (i.nibbles.map hexDigit)

/-- The cast the object-document mapper applies to a string used where an id is
expected (`findById`, query filters, `create`): twenty-four hex digits of
either case give the id, anything else raises `CastError` (`none`). Older
releases of the driver also took any string of twelve characters for an id;
a string of another length was never one. -/
def castObjectId (s : String) : Option ObjectId :=
  match s.data.mapM hexValue with
  | some l => if h : l.length = 24 then some ⟨l, h⟩ else none
  | none => none

/-- The id whose twenty-four nibbles are all `d`. -/
def ObjectId.replicate (d : Fin 16) : ObjectId :=
  ⟨List.replicate 24 d, List.length_replicate 24 d⟩

/-! ## Documents -/

/-- A document of the `User` model (`Models/User.js`). -/
structure User where
  _id : ObjectId
  fullName : String
  email : String
  password : String
  bio : String
  profilePic : String
  nativeLanguage : String
  learningLanguage : String
  location : String
  isOnboarded : Bool
  friends : List ObjectId
deriving DecidableEq

/-- The `id` virtual of a user document. -/
def User.id (u : User) : String := u._id.toHexString

/-- Modelled from the spec: the status of a friend request; the schema file
`Models/FriendRequest.js` is not part of the sources. The spec gives
`status ∈ {pending, accepted}`. -/
inductive Status where
  | pending
  | accepted
deriving DecidableEq

/-- Modelled from the spec: a document of the `FriendRequest` model
(`Models/FriendRequest.js` is not part of the sources): a sender, a recipient
and a status, with no uniqueness constraint beyond `_id`. -/
structure FriendRequest where
  _id : ObjectId
  sender : ObjectId
  recipient : ObjectId
  status : Status
deriving DecidableEq

/-- Modelled from the spec: the status a `FriendRequest` document gets when
`create` is not given one (`Models/FriendRequest.js` is not part of the
sources; the spec has a sent request created in the `pending` state). -/
def FriendRequest.defaultStatus : Status := Status.pending

/-- The fields `populate` selects from a user document, next to its `_id`:
`fullName profilePic nativeLanguage learningLanguage`, or `fullName profilePic`
alone, in which case the two languages are absent. -/
structure Profile where
  _id : ObjectId
  fullName : String
  profilePic : String
  nativeLanguage : Option String
  learningLanguage : Option String
deriving DecidableEq

/-- A reference path of a document sent in a response: the id as stored, or
what `populate` put in its place, which is `null` (`none`) when no user has
the id. -/
inductive Ref where
  | id (i : ObjectId)
  | doc (p : Option Profile)
deriving DecidableEq

/-- A friend-request document as a query with `populate` returns it. -/
structure PopulatedRequest where
  _id : ObjectId
  sender : Ref
  recipient : Ref
  status : Status
deriving DecidableEq

/-- The two collections of the store. -/
structure Store where
  users : List User
  friendRequests : List FriendRequest
deriving DecidableEq

/-- The store with no documents. -/
def Store.empty : Store := ⟨[], []⟩

/-! ## Responses -/

/-- The JSON body of a response, one constructor per shape the controllers
send. -/
inductive Body where
  /-- The body `{ message }`. -/
  | message (message : String)
  /-- The body `{ success: false, message }`. -/
  | failure (message : String)
  /-- The body `{ message, missingFields }`. -/
  | missing (message : String) (missingFields : List String)
  /-- A friend-request document. -/
  | friendRequest (doc : FriendRequest)
  /-- The body `{ success: true, user, message }`. -/
  | created (user : User) (message : String)
  /-- The body `{ message, user }`. -/
  | onboarded (message : String) (user : User)
  /-- An array of user documents. -/
  | users (docs : List User)
  /-- An array of populated friends. -/
  | profiles (docs : List Profile)
  /-- An array of populated friend requests. -/
  | requests (docs : List PopulatedRequest)
  /-- The body `{ incomingReqs, acceptedReqs }`. -/
  | incomingAndAccepted (incomingReqs : List PopulatedRequest)
      (acceptedReqs : List PopulatedRequest)
  /-- The body `{ token }`; an `undefined` token (`none`) leaves the key out. -/
  | token (token : Option String)
deriving DecidableEq

/-- What `res.status(code).json(body)` sends. -/
structure Response where
  status : Nat
  body : Body
deriving DecidableEq

/-- The response of the `catch` block of the controllers of `user.js` and of
`protectRoute`. -/
def internalServerError : Response :=
  ⟨500, Body.message "Internal Server Error"⟩

/-- The response of the `catch` block of the controllers of `auth.js`. -/
def internalServerFailure : Response :=
  ⟨500, Body.failure "Internal Server Error"⟩

/-! ## Store primitives -/

/-- Rewrite the first element that satisfies `p`. -/
def updateFirst {α : Type} (p : α → Bool) (f : α → α) : List α → List α
  | [] => []
  | a :: l => if p a then f a :: l else a :: updateFirst p f l

/-- The query `User.findById(id)` on an id that has been cast. -/
def User.findById (s : Store) (i : ObjectId) : Option User :=
  s.users.find? (fun u => decide (u._id = i))

/-- The query `FriendRequest.findById(id)` on an id that has been cast. -/
def FriendRequest.findById (s : Store) (i : ObjectId) : Option FriendRequest :=
  s.friendRequests.find? (fun r => decide (r._id = i))

/-- The update `User.findByIdAndUpdate(id, update)`: the store after the first
user with this id is rewritten; no user has the id, nothing changes. -/
def User.findByIdAndUpdate (s : Store) (i : ObjectId) (f : User → User) : Store :=
  { s with users := updateFirst (fun u => decide (u._id = i)) f s.users }

/-- The update operator `$addToSet`: append unless already present. -/
def addToSet (l : List ObjectId) (x : ObjectId) : List ObjectId :=
  if x ∈ l then l else l ++ [x]

/-- The method `includes` of a document array of ids applied to a string: an
element matches when its string form equals the argument. -/
def includes (l : List ObjectId) (x : String) : Bool :=
  l.any (fun i => i.toHexString == x)

/-- The update `{ $addToSet: { friends: x } }` applied to a user document. -/
def addFriend (x : ObjectId) (u : User) : User :=
  { u with friends := addToSet u.friends x }

/-- The assignment `friendRequest.status = "accepted"`. -/
def markAccepted (r : FriendRequest) : FriendRequest :=
  { r with status := Status.accepted }

/-- The store after `friendRequest.status = "accepted"` and
`friendRequest.save()` on the request found under `requestId`. -/
def saveAccepted (s : Store) (requestId : ObjectId) : Store :=
  { s with friendRequests :=
      updateFirst (fun r => decide (r._id = requestId)) markAccepted s.friendRequests }

/-- The filter `$or: [{sender: a, recipient: b}, {sender: b, recipient: a}]`. -/
def betweenPair (a b : ObjectId) (r : FriendRequest) : Bool :=
  (decide (r.sender = a) && decide (r.recipient = b)) ||
    (decide (r.sender = b) && decide (r.recipient = a))

/-! ## `Controllers/user.js` -/

/-- The controller `sendFriendRequest`: `reqUser` is `req.user`, `id` is the route
parameter `req.params.id`, `newId` is the `_id` generated for the document
`FriendRequest.create` inserts (inserting an `_id` already in the collection
raises a duplicate-key error). -/
def sendFriendRequest (s : Store) (reqUser : User) (id : String) (newId : ObjectId) :
    Response × Store :=
  let myId := reqUser.id
  if myId = id then
    (⟨400, Body.message "You can't send friend request to yourself"⟩, s)
  else
    match castObjectId id with
    | none => (internalServerError, s)
    | some recipientId =>
      match User.findById s recipientId with
      | none => (⟨404, Body.message "Recipient not found"⟩, s)
      | some recipient =>
        if includes recipient.friends myId then
          (⟨400, Body.message "You are already friends with this user"⟩, s)
        else
          match s.friendRequests.find? (betweenPair reqUser._id recipientId) with
          | some _ =>
            (⟨400, Body.message "A friend request already exists between you and this user"⟩, s)
          | none =>
            if s.friendRequests.any (fun r => decide (r._id = newId)) then
              (internalServerError, s)
            else
              let friendRequest : FriendRequest :=
                ⟨newId, reqUser._id, recipientId, FriendRequest.defaultStatus⟩
              (⟨201, Body.friendRequest friendRequest⟩,
                { s with friendRequests := s.friendRequests ++ [friendRequest] })

/-- The controller `acceptFriendRequest`: `reqUser` is `req.user`, `id` is the
route parameter `req.params.id`. -/
def acceptFriendRequest (s : Store) (reqUser : User) (id : String) : Response × Store :=
  match castObjectId id with
  | none => (internalServerError, s)
  | some requestId =>
    match FriendRequest.findById s requestId with
    | none => (⟨404, Body.message "Friend request not found"⟩, s)
    | some friendRequest =>
      if friendRequest.recipient.toHexString ≠ reqUser.id then
        (⟨403, Body.message "You are not authorized to accept this request"⟩, s)
      else
        let s₁ := saveAccepted s requestId
        let s₂ := User.findByIdAndUpdate s₁ friendRequest.sender
          (addFriend friendRequest.recipient)
        let s₃ := User.findByIdAndUpdate s₂ friendRequest.recipient
          (addFriend friendRequest.sender)
        (⟨200, Body.message "Friend request accepted"⟩, s₃)

/-- The selection `"fullName profilePic nativeLanguage learningLanguage"`. -/
def selectProfile (u : User) : Profile :=
  ⟨u._id, u.fullName, u.profilePic, some u.nativeLanguage, some u.learningLanguage⟩

/-- The selection `"fullName profilePic"`. -/
def selectNameAndPic (u : User) : Profile :=
  ⟨u._id, u.fullName, u.profilePic, none, none⟩

/-- The controller `getRecommendedUsers`: `reqUser` is `req.user`, whose string
`id` the query casts back to its `_id`. The filter is the `$and` of
`_id ≠ currentUserId`, `_id ∉ currentUser.friends` and `isOnboarded: true`; no
sort is asked for, so the documents come back in the order of the
collection. -/
def getRecommendedUsers (s : Store) (reqUser : User) : Response × Store :=
  let currentUserId := reqUser._id
  let currentUser := reqUser
  let recommendedUsers := s.users.filter (fun u =>
    decide (u._id ≠ currentUserId) && !(currentUser.friends.contains u._id) && u.isOnboarded)
  (⟨200, Body.users recommendedUsers⟩, s)

/-- The controller `getMyFriends`: `reqUser` is `req.user`. `populate` on the array
`friends` puts the selected fields of each friend in place of its id and drops
the ids no user has; reading `friends` of `null` raises. -/
def getMyFriends (s : Store) (reqUser : User) : Response × Store :=
  match User.findById s reqUser._id with
  | none => (internalServerError, s)
  | some user =>
    (⟨200, Body.profiles (user.friends.filterMap (fun i =>
      (User.findById s i).map selectProfile))⟩, s)

/-- The controller `getFriendRequests`: `reqUser` is `req.user`. -/
def getFriendRequests (s : Store) (reqUser : User) : Response × Store :=
  let incomingReqs := (s.friendRequests.filter (fun r =>
    decide (r.recipient = reqUser._id) && decide (r.status = Status.pending))).map (fun r =>
      (⟨r._id, Ref.doc ((User.findById s r.sender).map selectProfile), Ref.id r.recipient,
        r.status⟩ : PopulatedRequest))
  let acceptedReqs := (s.friendRequests.filter (fun r =>
    decide (r.sender = reqUser._id) && decide (r.status = Status.accepted))).map (fun r =>
      (⟨r._id, Ref.id r.sender, Ref.doc ((User.findById s r.recipient).map selectNameAndPic),
        r.status⟩ : PopulatedRequest))
  (⟨200, Body.incomingAndAccepted incomingReqs acceptedReqs⟩, s)

/-- The controller `getOutgoingFriendReqs`: `reqUser` is `req.user`. -/
def getOutgoingFriendReqs (s : Store) (reqUser : User) : Response × Store :=
  let outgoingRequests := (s.friendRequests.filter (fun r =>
    decide (r.sender = reqUser._id) && decide (r.status = Status.pending))).map (fun r =>
      (⟨r._id, Ref.id r.sender, Ref.doc ((User.findById s r.recipient).map selectProfile),
        r.status⟩ : PopulatedRequest))
  (⟨200, Body.requests outgoingRequests⟩, s)

/-! ## `lib/stream.js` -/

/-- The `userData` handed to the chat provider. -/
structure StreamUser where
  id : String
  name : String
  image : String
deriving DecidableEq

/-- The provider call `streamClient.upsertUsers([userData])`: it returns when
`providerOk` holds and raises otherwise. -/
def upsertUsers (providerOk : Bool) (_userData : StreamUser) : Except String Unit :=
  if providerOk then Except.ok () else Except.error "upsertUsers failed"

/-- The helper `upsertStreamUser`: the `try` block returns `userData`, the `catch`
block logs and falls through, so that the helper returns `undefined`
(`none`). -/
def upsertStreamUser (providerOk : Bool) (userData : StreamUser) :
    Except String (Option StreamUser) :=
  match upsertUsers providerOk userData with
  | Except.ok _ => Except.ok (some userData)
  | Except.error _ => Except.ok none

/-- The helper `generateStreamToken`: `createToken` is the provider call
`streamClient.createToken`, which returns a token or raises; the `try` block
returns the token, the `catch` block logs and falls through, so that the helper
returns `undefined` (`none`). -/
def generateStreamToken (createToken : String → Except String String) (userId : String) :
    Except String (Option String) :=
  match createToken userId with
  | Except.ok token => Except.ok (some token)
  | Except.error _ => Except.ok none

/-! ## `Controllers/chat.js` -/

/-- The controller `getStreamToken`: `reqUser` is `req.user`, `createToken` is the
provider call. It reads and writes nothing in the store. -/
def getStreamToken (createToken : String → Except String String) (reqUser : User) :
    Response :=
  match generateStreamToken createToken reqUser.id with
  | Except.ok token => ⟨200, Body.token token⟩
  | Except.error _ => internalServerError

/-! ## `middleware/auth.js` -/

/-- What the `jwt` cookie of a request amounts to: no cookie (or an empty one),
a token `jwt.verify` raises on (bad signature, expired, malformed), or a token
that verifies, with the `userId` of its payload. A verified payload is an
object, so the `!decoded` branch of `protectRoute` is never taken. -/
inductive Credential where
  | absent
  | rejected
  | verified (userId : ObjectId)
deriving DecidableEq

/-- The projection `.select("-password")`. -/
def selectWithoutPassword (u : User) : User := { u with password := "" }

/-- The middleware `protectRoute`: the response it sends itself, or the user it
attaches as `req.user` before calling `next`. -/
def protectRoute (s : Store) (cred : Credential) : Except Response User :=
  match cred with
  | Credential.absent =>
    Except.error ⟨401, Body.message "Unauthorized  - No token provided"⟩
  | Credential.rejected => Except.error internalServerError
  | Credential.verified userId =>
    match User.findById s userId with
    | none => Except.error ⟨401, Body.message "Unauthorized - User not found"⟩
    | some user => Except.ok (selectWithoutPassword user)

/-! ## `Controllers/auth.js` -/

/-- The test `!x` on a body field that is absent or a string. -/
def falsy (x : Option String) : Bool :=
  match x with
  | none => true
  | some v => v == ""

/-- The `length` of a string: its number of UTF-16 code units. -/
def jsLength (x : String) : Nat :=
  (x.data.map (fun c => if c.toNat < 65536 then 1 else 2)).sum

/-- The class `\s` of the regular-expression engine. -/
def isJsSpace (c : Char) : Bool :=
  let n := c.toNat
  n == 9 || n == 10 || n == 11 || n == 12 || n == 13 || n == 32 || n == 160 ||
    n == 5760 || (decide (8192 ≤ n) && decide (n ≤ 8202)) || n == 8232 || n == 8233 ||
    n == 8239 || n == 8287 || n == 12288 || n == 65279

/-- A match of `[^\s@]+` against a whole segment. -/
def classPlus (l : List Char) : Bool :=
  !l.isEmpty && l.all (fun c => !isJsSpace c && c != '@')

/-- The test `emailRegex.test(email)` for
`/^[^\s@]+@[^\s@]+\.[^\s@]+$/`: some `@` at position `i` and some `.` at a
later position `j` cut the string into three segments of `[^\s@]+`. -/
def emailRegexTest (email : String) : Bool :=
  let cs := email.data
  (List.range cs.length).any fun i =>
    (List.range cs.length).any fun j =>
      decide (i < j) && cs.get? i == some '@' && cs.get? j == some '.' &&
        classPlus (cs.take i) && classPlus ((cs.take j).drop (i + 1)) &&
        classPlus (cs.drop (j + 1))

/-- The body of a signup request: each field absent or a string. -/
structure SignupBody where
  email : Option String
  password : Option String
  fullName : Option String
deriving DecidableEq

/-- The controller `signup`: `newId` is the `_id` generated for the new user,
`rand` is `Math.floor(Math.random() * 100)`, `passwordHash` is what the
`pre("save")` hook stores for the password, `providerOk` tells whether the chat
provider accepts the upsert. `User.create` raises a duplicate-key error when
the unique index on `fullName` (or on `_id`) is violated. -/
def signup (s : Store) (body : SignupBody) (newId : ObjectId) (rand : Fin 100)
    (passwordHash : String) (providerOk : Bool) : Response × Store :=
  if falsy body.email || falsy body.password || falsy body.fullName then
    (⟨400, Body.message "All fields are required"⟩, s)
  else
    let email := body.email.getD ""
    let password := body.password.getD ""
    let fullName := body.fullName.getD ""
    if jsLength password < 8 then
      (⟨400, Body.message "Password must be at least 8 characters long"⟩, s)
    else if !emailRegexTest email then
      (⟨400, Body.message "Invalid email format"⟩, s)
    else
      match s.users.find? (fun u => decide (u.email = email)) with
      | some _ => (⟨400, Body.message "Email already exists, please use another email"⟩, s)
      | none =>
        let idx := rand.val + 1
        let randomPic := "https://avatar.iran.liara.run/public/" ++ toString idx ++ ".png"
        if s.users.any (fun u => decide (u.fullName = fullName) || decide (u._id = newId)) then
          (internalServerFailure, s)
        else
          let newUser : User :=
            { _id := newId, fullName := fullName, email := email, password := passwordHash,
              bio := "", profilePic := randomPic, nativeLanguage := "",
              learningLanguage := "", location := "", isOnboarded := false, friends := [] }
          let created : Response × Store :=
            (⟨201, Body.created newUser "User created successfully"⟩,
              { s with users := s.users ++ [newUser] })
          -- try { await upsertStreamUser(...) } catch (error) { console.log(...) }
          match upsertStreamUser providerOk
            ⟨newUser._id.toHexString, newUser.fullName, newUser.profilePic⟩ with
          | Except.ok _ => created
          | Except.error _ => created

/-- The body of an onboarding request, restricted to the paths of the user
schema (the mapper drops every other key): each string field absent or a
string, `isOnboarded` absent or a boolean, `friends` absent or an array of
strings. -/
structure OnboardBody where
  fullName : Option String
  bio : Option String
  nativeLanguage : Option String
  learningLanguage : Option String
  location : Option String
  email : Option String
  password : Option String
  profilePic : Option String
  isOnboarded : Option Bool
  friends : Option (List String)
deriving DecidableEq

/-- The list `[!fullName && "fullName", ...].filter(Boolean)`. -/
def missingFields (body : OnboardBody) : List String :=
  ([(falsy body.fullName, "fullName"), (falsy body.bio, "bio"),
    (falsy body.nativeLanguage, "nativeLanguage"),
    (falsy body.learningLanguage, "learningLanguage"),
    (falsy body.location, "location")].filter (fun p => p.1)).map (fun p => p.2)

/-- The cast of the `friends` key of an update: absent stays absent, an array
is cast element by element, one failed cast raising `CastError` (outer
`none`). -/
def castFriends (friends : Option (List String)) : Option (Option (List ObjectId)) :=
  match friends with
  | none => some none
  | some l => (l.mapM castObjectId).map some

/-- The document after `$set` of `{...req.body, isOnboarded: true}`, the
`friends` key already cast. -/
def applyOnboardUpdate (u : User) (body : OnboardBody) (friends : Option (List ObjectId)) :
    User :=
  { _id := u._id
    fullName := body.fullName.getD u.fullName
    email := body.email.getD u.email
    password := body.password.getD u.password
    bio := body.bio.getD u.bio
    profilePic := body.profilePic.getD u.profilePic
    nativeLanguage := body.nativeLanguage.getD u.nativeLanguage
    learningLanguage := body.learningLanguage.getD u.learningLanguage
    location := body.location.getD u.location
    isOnboarded := true
    friends := friends.getD u.friends }

/-- The controller `onboard`: `reqUser` is `req.user`, `providerOk` tells whether
the chat provider accepts the upsert. The update raises `CastError` when a
value does not cast and a duplicate-key error when it gives the user a
`fullName` or an `email` that another user has. -/
def onboard (s : Store) (reqUser : User) (body : OnboardBody) (providerOk : Bool) :
    Response × Store :=
  let usedId := reqUser._id
  if falsy body.fullName || falsy body.bio || falsy body.nativeLanguage ||
      falsy body.learningLanguage || falsy body.location then
    (⟨400, Body.missing "All fields are required" (missingFields body)⟩, s)
  else
    match castFriends body.friends with
    | none => (internalServerFailure, s)
    | some friends =>
      match User.findById s usedId with
      | none => (⟨404, Body.message "User not found"⟩, s)
      | some user =>
        let updatedUser := applyOnboardUpdate user body friends
        if s.users.any (fun v => decide (v._id ≠ usedId) &&
            (decide (v.fullName = updatedUser.fullName) ||
              (body.email.isSome && decide (v.email = updatedUser.email)))) then
          (internalServerFailure, s)
        else
          let updated : Response × Store :=
            (⟨200, Body.onboarded "Profile onboarded successfully" updatedUser⟩,
              User.findByIdAndUpdate s usedId (fun _ => updatedUser))
          -- try { await upsertStreamUser(...) } catch (streamError) { console.log(...) }
          match upsertStreamUser providerOk
            ⟨updatedUser._id.toHexString, updatedUser.fullName, updatedUser.profilePic⟩ with
          | Except.ok _ => updated
          | Except.error _ => updated

/-! ## Requests to the server -/

/-- A request to one of the four mutating endpoints, with the values the
environment supplies while it is handled. -/
inductive Call where
  | signup (body : SignupBody) (newId : ObjectId) (rand : Fin 100)
      (passwordHash : String) (providerOk : Bool)
  | onboard (cred : Credential) (body : OnboardBody) (providerOk : Bool)
  | sendFriendRequest (cred : Credential) (id : String) (newId : ObjectId)
  | acceptFriendRequest (cred : Credential) (id : String)

/-- Modelled from the spec: the route table (`Routes/auth.js` and
`Routes/user.js` are not part of the sources). Signup is open; onboarding and
the friend-request endpoints run `protectRoute` first and reach the controller
only with the user it attached. -/
def handle (s : Store) (c : Call) : Response × Store :=
  match c with
  | Call.signup body newId rand passwordHash providerOk =>
    signup s body newId rand passwordHash providerOk
  | Call.onboard cred body providerOk =>
    match protectRoute s cred with
    | Except.error r => (r, s)
    | Except.ok reqUser => onboard s reqUser body providerOk
  | Call.sendFriendRequest cred id newId =>
    match protectRoute s cred with
    | Except.error r => (r, s)
    | Except.ok reqUser => sendFriendRequest s reqUser id newId
  | Call.acceptFriendRequest cred id =>
    match protectRoute s cred with
    | Except.error r => (r, s)
    | Except.ok reqUser => acceptFriendRequest s reqUser id

/-- The store after a sequence of requests, each handled to completion before
the next. -/
def run (s : Store) (cs : List Call) : Store :=
  cs.foldl (fun t c => (handle t c).2) s

/-- The stores reachable from the empty store by requests handled one at a
time. -/
inductive Reachable : Store → Prop where
  | empty : Reachable Store.empty
  | step {s : Store} (c : Call) : Reachable s → Reachable (handle s c).2

/-- Whether a request is an onboarding. -/
def Call.isOnboard : Call → Bool
  | Call.onboard _ _ _ => true
  | _ => false

/-- The stores reachable from the empty store by signups, friend requests and
acceptances handled one at a time, without any onboarding. -/
inductive ReachableWithoutOnboard : Store → Prop where
  | empty : ReachableWithoutOnboard Store.empty
  | step {s : Store} (c : Call) : c.isOnboard = false → ReachableWithoutOnboard s →
      ReachableWithoutOnboard (handle s c).2

/-- A request to any endpoint that touches the store: the four mutating ones
and the four queries of `Controllers/user.js`. -/
inductive Operation where
  | call (c : Call)
  | getRecommendedUsers (cred : Credential)
  | getMyFriends (cred : Credential)
  | getFriendRequests (cred : Credential)
  | getOutgoingFriendReqs (cred : Credential)

/-- Modelled from the spec: the route table for the queries (`Routes/user.js`
is not part of the sources; the spec lists each of them as guarded), on top of
`handle`. -/
def perform (s : Store) (o : Operation) : Response × Store :=
  match o with
  | Operation.call c => handle s c
  | Operation.getRecommendedUsers cred =>
    match protectRoute s cred with
    | Except.error r => (r, s)
    | Except.ok reqUser => getRecommendedUsers s reqUser
  | Operation.getMyFriends cred =>
    match protectRoute s cred with
    | Except.error r => (r, s)
    | Except.ok reqUser => getMyFriends s reqUser
  | Operation.getFriendRequests cred =>
    match protectRoute s cred with
    | Except.error r => (r, s)
    | Except.ok reqUser => getFriendRequests s reqUser
  | Operation.getOutgoingFriendReqs cred =>
    match protectRoute s cred with
    | Except.error r => (r, s)
    | Except.ok reqUser => getOutgoingFriendReqs s reqUser

/-- The store after a sequence of operations, each performed to completion
before the next. -/
def performAll (s : Store) (os : List Operation) : Store :=
  os.foldl (fun t o => (perform t o).2) s

/-! ## `client/src/App.jsx` -/

/-- The `authUser` of `useAuthUser`, of which `App` reads `isOnboarded` alone. -/
structure AuthUser where
  isOnboarded : Bool
deriving DecidableEq

/-- What `useAuthUser` returns: the query is loading, in which case there is no
data, or it has settled with `authUser`, which is `null` (`none`) when the
server did not answer with a user. -/
inductive AuthQuery where
  | loading
  | settled (authUser : Option AuthUser)
deriving DecidableEq

/-- The page components. -/
inductive Page where
  | home
  | signUp
  | login
  | notifications
  | call
  | chat
  | onboarding
deriving DecidableEq

/-- What `App` puts on the screen for a route: the loader, a page (inside
`Layout` with the given `showSidebar`, or bare), or a `Navigate`. -/
inductive Element where
  | pageLoader
  | page (p : Page) (showSidebar : Option Bool)
  | navigate (target : String)
deriving DecidableEq

/-- The seven `Route` children of `Routes`, in the order of the source. -/
inductive RouteId where
  | home
  | signup
  | login
  | notifications
  | call
  | chat
  | onboarding
deriving DecidableEq

/-- The `path` of a route. -/
def RouteId.path : RouteId → String
  | RouteId.home => "/"
  | RouteId.signup => "/signup"
  | RouteId.login => "/login"
  | RouteId.notifications => "/notifications"
  | RouteId.call => "/call/:id"
  | RouteId.chat => "/chat/:id"
  | RouteId.onboarding => "/onboarding"

/-- The page a route is there for. -/
def RouteId.page : RouteId → Page
  | RouteId.home => Page.home
  | RouteId.signup => Page.signUp
  | RouteId.login => Page.login
  | RouteId.notifications => Page.notifications
  | RouteId.call => Page.call
  | RouteId.chat => Page.chat
  | RouteId.onboarding => Page.onboarding

/-- The routes `App` defines. -/
def allRoutes : List RouteId :=
  [RouteId.home, RouteId.signup, RouteId.login, RouteId.notifications, RouteId.call,
    RouteId.chat, RouteId.onboarding]

/-- The `element` of each route, for the two flags `App` computes. -/
def routeElement (isAuthenticated isOnboarded : Bool) : RouteId → Element
  | RouteId.home =>
    if isAuthenticated && isOnboarded then Element.page Page.home (some true)
    else Element.navigate (if !isAuthenticated then "/login" else "/onboarding")
  | RouteId.signup =>
    if !isAuthenticated then Element.page Page.signUp none
    else Element.navigate (if isOnboarded then "/" else "/onboarding")
  | RouteId.login =>
    if !isAuthenticated then Element.page Page.login none
    else Element.navigate (if isOnboarded then "/" else "/onboarding")
  | RouteId.notifications =>
    if isAuthenticated && isOnboarded then Element.page Page.notifications (some true)
    else Element.navigate (if !isAuthenticated then "/login" else "/onboarding")
  | RouteId.call =>
    if isAuthenticated && isOnboarded then Element.page Page.call none
    else Element.navigate (if !isAuthenticated then "/login" else "/onboarding")
  | RouteId.chat =>
    if isAuthenticated && isOnboarded then Element.page Page.chat (some false)
    else Element.navigate (if !isAuthenticated then "/login" else "/onboarding")
  | RouteId.onboarding =>
    if isAuthenticated then
      (if !isOnboarded then Element.page Page.onboarding none else Element.navigate "/")
    else Element.navigate "/login"

/-- The component `App`, at the route the router matched: the loader while the
query is loading, the element of the route otherwise, with
`isAuthenticated = Boolean(authUser)` and `isOnboarded = authUser?.isOnboarded`. -/
def App (query : AuthQuery) (route : RouteId) : Element :=
  match query with
  | AuthQuery.loading => Element.pageLoader
  | AuthQuery.settled authUser =>
    let isAuthenticated := authUser.isSome
    let isOnboarded := match authUser with
      | some user => user.isOnboarded
      | none => false
    routeElement isAuthenticated isOnboarded route

/-- The route a `Navigate` to a literal path lands on: the route with that
`path`, if `App` defines one. -/
def routeOfPath (target : String) : Option RouteId :=
  allRoutes.find? (fun r => r.path == target)

/-! ## Calls that raise -/

/-- The kind of an awaited call: to the document store or to the chat
provider. -/
inductive CallKind where
  | storage
  | provider
deriving DecidableEq

/-- One awaited call of a request, and whether it raised. -/
structure CallEvent where
  kind : CallKind
  raised : Bool
deriving DecidableEq

/-- What a request runs in: the store, for each coming awaited call the error
it raises on its own account, if any (a lost connection, a provider that is
down), and the calls made so far. -/
structure World where
  store : Store
  plan : List (Option String)
  log : List CallEvent

/-- A block of statements that may raise: it ends with a value or with the
error raised, in the world it leaves. -/
def Try (α : Type) : Type := World → Except String α × World

/-- A block that returns a value at once. -/
def Try.pure {α : Type} (a : α) : Try α := fun w => (Except.ok a, w)

/-- One block after another: an error of the first skips the second. -/
def Try.bind {α β : Type} (m : Try α) (f : α → Try β) : Try β := fun w =>
  match m w with
  | (Except.ok a, w') => f a w'
  | (Except.error e, w') => (Except.error e, w')

instance : Monad Try where
  pure := Try.pure
  bind := Try.bind

/-- The statement `throw`, or a library call that raises. -/
def Try.raise {α : Type} (e : String) : Try α := fun w => (Except.error e, w)

/-- An awaited call: it raises the error the plan holds for it, if any, and
otherwise does what `act` does on the store, which may raise as well (a cast
error, a duplicate key). -/
def Try.await {α : Type} (kind : CallKind) (act : Store → Except String α × Store) : Try α :=
  fun w =>
    match w.plan.headD none with
    | some e => (Except.error e, ⟨w.store, w.plan.tail, w.log ++ [⟨kind, true⟩]⟩)
    | none =>
      match act w.store with
      | (Except.ok a, s) => (Except.ok a, ⟨s, w.plan.tail, w.log ++ [⟨kind, false⟩]⟩)
      | (Except.error e, s) => (Except.error e, ⟨s, w.plan.tail, w.log ++ [⟨kind, true⟩]⟩)

/-- The statement `try { m } catch (error) { handler(error) }`. -/
def tryCatch {α : Type} (m : Try α) (handler : String → Try α) : Try α := fun w =>
  match m w with
  | (Except.ok a, w') => (Except.ok a, w')
  | (Except.error e, w') => handler e w'

/-- What a request ends with: what it sent, the store, and the calls it made. -/
structure Outcome (α : Type) where
  result : α
  store : Store
  log : List CallEvent

/-- A controller `try { body } catch (error) { res.status(500)... }` run on a
store under a plan of faults: `onError` is what the `catch` block sends. -/
def respond {α : Type} (onError : α) (body : Try α) (s : Store)
    (plan : List (Option String)) : Outcome α :=
  match body ⟨s, plan, []⟩ with
  | (Except.ok r, w) => ⟨r, w.store, w.log⟩
  | (Except.error _, w) => ⟨onError, w.store, w.log⟩

/-- A query: it reads the store and does not raise on its own account. -/
def query {α : Type} (q : Store → α) : Store → Except String α × Store :=
  fun s => (Except.ok (q s), s)

/-- A write that does not raise on its own account. -/
def write (f : Store → Store) : Store → Except String Unit × Store :=
  fun s => (Except.ok (), f s)

/-- A query by an id given as a string: the cast of the string raises
`CastError` when it fails. -/
def queryById {α : Type} (id : String) (q : Store → ObjectId → α) :
    Store → Except String α × Store :=
  fun s =>
    match castObjectId id with
    | none => (Except.error "CastError", s)
    | some i => (Except.ok (q s i), s)

/-- Some call to the store raised. -/
def StorageRaised (log : List CallEvent) : Prop :=
  ∃ ev ∈ log, ev.kind = CallKind.storage ∧ ev.raised = true

/-- A block that ends with an error whenever one of its calls to the store
raised. -/
def Propagates {α : Type} (m : Try α) : Prop :=
  ∀ w, ∃ new, (m w).2.log = w.log ++ new ∧
    (StorageRaised new → ∃ e, (m w).1 = Except.error e)

/-- A block that makes no call to the store. -/
def NoStorage {α : Type} (m : Try α) : Prop :=
  ∀ w, ∃ new, (m w).2.log = w.log ++ new ∧ ∀ ev ∈ new, ev.kind = CallKind.provider

/-! ## The controllers with every awaited call made explicit -/

/-- The controller `getRecommendedUsers`, `try` block. -/
def WithFaults.getRecommendedUsers (reqUser : User) : Try Response := do
  let recommendedUsers ← Try.await CallKind.storage (query fun s =>
    s.users.filter (fun u =>
      decide (u._id ≠ reqUser._id) && !(reqUser.friends.contains u._id) && u.isOnboarded))
  pure ⟨200, Body.users recommendedUsers⟩

/-- The controller `getMyFriends`, `try` block; `user.friends` of `null`
raises. -/
def WithFaults.getMyFriends (reqUser : User) : Try Response := do
  let user ← Try.await CallKind.storage (query fun s =>
    (User.findById s reqUser._id).map (fun user =>
      user.friends.filterMap (fun i => (User.findById s i).map selectProfile)))
  match user with
  | none => Try.raise "TypeError"
  | some friends => pure ⟨200, Body.profiles friends⟩

/-- The controller `sendFriendRequest`, `try` block. -/
def WithFaults.sendFriendRequest (reqUser : User) (id : String) (newId : ObjectId) :
    Try Response :=
  let myId := reqUser.id
  if myId = id then
    pure ⟨400, Body.message "You can't send friend request to yourself"⟩
  else do
    let recipient ← Try.await CallKind.storage (queryById id User.findById)
    match recipient with
    | none => pure ⟨404, Body.message "Recipient not found"⟩
    | some recipient =>
      if includes recipient.friends myId then
        pure ⟨400, Body.message "You are already friends with this user"⟩
      else do
        let existingRequest ← Try.await CallKind.storage (queryById id fun s recipientId =>
          s.friendRequests.find? (betweenPair reqUser._id recipientId))
        match existingRequest with
        | some _ =>
          pure ⟨400, Body.message "A friend request already exists between you and this user"⟩
        | none => do
          let friendRequest ← Try.await CallKind.storage (fun s =>
            match castObjectId id with
            | none => (Except.error "CastError", s)
            | some recipientId =>
              if s.friendRequests.any (fun r => decide (r._id = newId)) then
                (Except.error "E11000 duplicate key", s)
              else
                (Except.ok ⟨newId, reqUser._id, recipientId, FriendRequest.defaultStatus⟩,
                  ⟨s.users, s.friendRequests ++
                    [⟨newId, reqUser._id, recipientId, FriendRequest.defaultStatus⟩]⟩))
          pure ⟨201, Body.friendRequest friendRequest⟩

/-- The controller `acceptFriendRequest`, `try` block. -/
def WithFaults.acceptFriendRequest (reqUser : User) (id : String) : Try Response := do
  let friendRequest ← Try.await CallKind.storage (queryById id FriendRequest.findById)
  match friendRequest with
  | none => pure ⟨404, Body.message "Friend request not found"⟩
  | some friendRequest =>
    if friendRequest.recipient.toHexString ≠ reqUser.id then
      pure ⟨403, Body.message "You are not authorized to accept this request"⟩
    else do
      Try.await CallKind.storage (write fun s => saveAccepted s friendRequest._id)
      Try.await CallKind.storage (write fun s =>
        User.findByIdAndUpdate s friendRequest.sender (addFriend friendRequest.recipient))
      Try.await CallKind.storage (write fun s =>
        User.findByIdAndUpdate s friendRequest.recipient (addFriend friendRequest.sender))
      pure ⟨200, Body.message "Friend request accepted"⟩

/-- The controller `getFriendRequests`, `try` block. -/
def WithFaults.getFriendRequests (reqUser : User) : Try Response := do
  let incomingReqs ← Try.await CallKind.storage (query fun s =>
    (s.friendRequests.filter (fun r =>
      decide (r.recipient = reqUser._id) && decide (r.status = Status.pending))).map (fun r =>
        (⟨r._id, Ref.doc ((User.findById s r.sender).map selectProfile), Ref.id r.recipient,
          r.status⟩ : PopulatedRequest)))
  let acceptedReqs ← Try.await CallKind.storage (query fun s =>
    (s.friendRequests.filter (fun r =>
      decide (r.sender = reqUser._id) && decide (r.status = Status.accepted))).map (fun r =>
        (⟨r._id, Ref.id r.sender, Ref.doc ((User.findById s r.recipient).map selectNameAndPic),
          r.status⟩ : PopulatedRequest)))
  pure ⟨200, Body.incomingAndAccepted incomingReqs acceptedReqs⟩

/-- The controller `getOutgoingFriendReqs`, `try` block. -/
def WithFaults.getOutgoingFriendReqs (reqUser : User) : Try Response := do
  let outgoingRequests ← Try.await CallKind.storage (query fun s =>
    (s.friendRequests.filter (fun r =>
      decide (r.sender = reqUser._id) && decide (r.status = Status.pending))).map (fun r =>
        (⟨r._id, Ref.id r.sender, Ref.doc ((User.findById s r.recipient).map selectProfile),
          r.status⟩ : PopulatedRequest)))
  pure ⟨200, Body.requests outgoingRequests⟩

/-- The helper `upsertStreamUser` with its own `try` and `catch`. -/
def WithFaults.upsertStreamUser (userData : StreamUser) : Try (Option StreamUser) :=
  tryCatch
    (do
      Try.await CallKind.provider (fun s => (Except.ok (), s))
      pure (some userData))
    (fun _ => pure none)

/-- The controller `signup`, `try` block. -/
def WithFaults.signup (body : SignupBody) (newId : ObjectId) (rand : Fin 100)
    (passwordHash : String) : Try Response :=
  if falsy body.email || falsy body.password || falsy body.fullName then
    pure ⟨400, Body.message "All fields are required"⟩
  else
    let email := body.email.getD ""
    let password := body.password.getD ""
    let fullName := body.fullName.getD ""
    if jsLength password < 8 then
      pure ⟨400, Body.message "Password must be at least 8 characters long"⟩
    else if !emailRegexTest email then
      pure ⟨400, Body.message "Invalid email format"⟩
    else do
      let exsistingUser ← Try.await CallKind.storage (query fun s =>
        s.users.find? (fun u => decide (u.email = email)))
      match exsistingUser with
      | some _ =>
        pure ⟨400, Body.message "Email already exists, please use another email"⟩
      | none => do
        let idx := rand.val + 1
        let randomPic := "https://avatar.iran.liara.run/public/" ++ toString idx ++ ".png"
        let newUser ← Try.await CallKind.storage (fun s =>
          if s.users.any (fun u => decide (u.fullName = fullName) || decide (u._id = newId)) then
            (Except.error "E11000 duplicate key", s)
          else
            let newUser : User :=
              { _id := newId, fullName := fullName, email := email, password := passwordHash,
                bio := "", profilePic := randomPic, nativeLanguage := "",
                learningLanguage := "", location := "", isOnboarded := false, friends := [] }
            (Except.ok newUser, { s with users := s.users ++ [newUser] }))
        let _upserted ← tryCatch
          (WithFaults.upsertStreamUser
            ⟨newUser._id.toHexString, newUser.fullName, newUser.profilePic⟩)
          (fun _ => pure none)
        pure ⟨201, Body.created newUser "User created successfully"⟩

/-- The body of a login request: each field absent or a string. -/
structure LoginBody where
  email : Option String
  password : Option String
deriving DecidableEq

/-- The controller `login`, `try` block: `compare` is `bcrypt.compare` on the
entered password and the stored hash. -/
def WithFaults.login (compare : String → String → Bool) (body : LoginBody) : Try Response :=
  if falsy body.email || falsy body.password then
    pure ⟨400, Body.message "All fields are required"⟩
  else do
    let user ← Try.await CallKind.storage (query fun s =>
      s.users.find? (fun u => decide (u.email = body.email.getD "")))
    match user with
    | none => pure ⟨404, Body.message "Invalid email or password"⟩
    | some user =>
      if !compare (body.password.getD "") user.password then
        pure ⟨400, Body.message "Invalid email or password"⟩
      else
        pure ⟨200, Body.created user "User logged in successfully"⟩

/-- The controller `onboard`, `try` block. -/
def WithFaults.onboard (reqUser : User) (body : OnboardBody) : Try Response :=
  let usedId := reqUser._id
  if falsy body.fullName || falsy body.bio || falsy body.nativeLanguage ||
      falsy body.learningLanguage || falsy body.location then
    pure ⟨400, Body.missing "All fields are required" (missingFields body)⟩
  else do
    let updatedUser ← Try.await CallKind.storage (fun s =>
      match castFriends body.friends with
      | none => (Except.error "CastError", s)
      | some friends =>
        match User.findById s usedId with
        | none => (Except.ok none, s)
        | some user =>
          let updatedUser := applyOnboardUpdate user body friends
          if s.users.any (fun v => decide (v._id ≠ usedId) &&
              (decide (v.fullName = updatedUser.fullName) ||
                (body.email.isSome && decide (v.email = updatedUser.email)))) then
            (Except.error "E11000 duplicate key", s)
          else
            (Except.ok (some updatedUser),
              User.findByIdAndUpdate s usedId (fun _ => updatedUser)))
    match updatedUser with
    | none => pure ⟨404, Body.message "User not found"⟩
    | some updatedUser => do
      let _upserted ← tryCatch
        (WithFaults.upsertStreamUser
          ⟨updatedUser._id.toHexString, updatedUser.fullName, updatedUser.profilePic⟩)
        (fun _ => pure none)
      pure ⟨200, Body.onboarded "Profile onboarded successfully" updatedUser⟩

/-- The helper `generateStreamToken` with its own `try` and `catch`. -/
def WithFaults.generateStreamToken (createToken : String → Except String String)
    (userId : String) : Try (Option String) :=
  tryCatch
    (do
      let token ← Try.await CallKind.provider (fun s => (createToken userId, s))
      pure (some token))
    (fun _ => pure none)

/-- The controller `getStreamToken`, `try` block. -/
def WithFaults.getStreamToken (createToken : String → Except String String)
    (reqUser : User) : Try Response := do
  let token ← WithFaults.generateStreamToken createToken reqUser.id
  pure ⟨200, Body.token token⟩

/-- The middleware `protectRoute`, `try` block: the response it sends itself,
or the user it attaches before calling `next`; `jwt.verify` raises on a token
it rejects. -/
def WithFaults.protectRoute (cred : Credential) : Try (Except Response User) :=
  match cred with
  | Credential.absent =>
    pure (Except.error ⟨401, Body.message "Unauthorized  - No token provided"⟩)
  | Credential.rejected => Try.raise "JsonWebTokenError"
  | Credential.verified userId => do
    let user ← Try.await CallKind.storage (query fun s =>
      (User.findById s userId).map selectWithoutPassword)
    match user with
    | none => pure (Except.error ⟨401, Body.message "Unauthorized - User not found"⟩)
    | some user => pure (Except.ok user)

/-! ## Notions used by the statements -/

/-- Every friend a stored user lists is backed by a stored accepted request
between the two, in one order or the other. -/
def FriendsBacked (s : Store) : Prop :=
  ∀ u ∈ s.users, ∀ b ∈ u.friends,
    ∃ r ∈ s.friendRequests, r.status = Status.accepted ∧ betweenPair u._id b r = true

/-- The sender and the recipient of every stored request are stored users. -/
def EndpointsStored (s : Store) : Prop :=
  ∀ r ∈ s.friendRequests,
    (User.findById s r.sender).isSome = true ∧ (User.findById s r.recipient).isSome = true

/-- The shape of an accepted email in words: no whitespace anywhere, exactly
one `@`, a non-empty part before it, and after it a part that has a `.` with at
least one character before it and at least one after it. -/
def EmailShape (email : String) : Prop :=
  (∀ c ∈ email.data, isJsSpace c = false) ∧ email.data.count '@' = 1 ∧
    ∃ a d, email.data = a ++ '@' :: d ∧ a ≠ [] ∧
      ∃ b c, d = b ++ '.' :: c ∧ b ≠ [] ∧ c ≠ []

/-- A body field that is absent or the empty string. -/
def Missing (x : Option String) : Prop := x = none ∨ x = some ""

instance (x : Option String) : Decidable (Missing x) :=
  inferInstanceAs (Decidable (x = none ∨ x = some ""))

/-- The names of the five fields `onboard` requires, in the order it lists
them. -/
def requiredFields : List String :=
  ["fullName", "bio", "nativeLanguage", "learningLanguage", "location"]

/-- The request `q` is a later state of the stored request `r`: the same id,
sender and recipient, and accepted if `r` is. -/
def LaterOf (r q : FriendRequest) : Prop :=
  q._id = r._id ∧ q.sender = r.sender ∧ q.recipient = r.recipient ∧
    (r.status = Status.accepted → q.status = Status.accepted)

/-- The sender and the recipient of a request. -/
def FriendRequest.pair (r : FriendRequest) : ObjectId × ObjectId := (r.sender, r.recipient)

/-- The stored requests whose sender and recipient are `a` and `b` in either
order. -/
def requestsBetween (s : Store) (a b : ObjectId) : List FriendRequest :=
  s.friendRequests.filter (betweenPair a b)

/-- Two pairs that are not the same unordered pair. -/
def DistinctPairs (p q : ObjectId × ObjectId) : Prop :=
  q ≠ p ∧ q ≠ (p.2, p.1)

/-! ## Sample data -/

/-- The id `aaaaaaaaaaaaaaaaaaaaaaaa`. -/
def aliceId : ObjectId := ObjectId.replicate 10

/-- The id `bbbbbbbbbbbbbbbbbbbbbbbb`. -/
def bobId : ObjectId := ObjectId.replicate 11

/-- The id `111111111111111111111111`. -/
def firstRequestId : ObjectId := ObjectId.replicate 1

/-- The id `222222222222222222222222`. -/
def secondRequestId : ObjectId := ObjectId.replicate 2

/-- The signup of Alice, who is given the id `aliceId`. -/
def signupAlice : Call :=
  Call.signup ⟨some "alice@example.com", some "password", some "Alice"⟩ aliceId 0 "hashA" true

/-- The signup of Bob, who is given the id `bobId`. -/
def signupBob : Call :=
  Call.signup ⟨some "bob@example.com", some "password", some "Bob"⟩ bobId 1 "hashB" true

/-- The user document of Alice after her signup. -/
def alice : User :=
  { _id := aliceId, fullName := "Alice", email := "alice@example.com", password := "hashA",
    bio := "", profilePic := "https://avatar.iran.liara.run/public/1.png",
    nativeLanguage := "", learningLanguage := "", location := "", isOnboarded := false,
    friends := [] }

/-- The user document of Bob after his signup. -/
def bob : User :=
  { _id := bobId, fullName := "Bob", email := "bob@example.com", password := "hashB",
    bio := "", profilePic := "https://avatar.iran.liara.run/public/2.png",
    nativeLanguage := "", learningLanguage := "", location := "", isOnboarded := false,
    friends := [] }

/-- Alice onboards with a body that also carries the key `friends`. -/
def onboardAliceWithFriends : Call :=
  Call.onboard (Credential.verified aliceId)
    { fullName := some "Alice", bio := some "hello", nativeLanguage := some "english",
      learningLanguage := some "spanish", location := some "Paris", email := none,
      password := none, profilePic := none, isOnboarded := none,
      friends := some ["bbbbbbbbbbbbbbbbbbbbbbbb"] } true

/-- Alice sends a friend request to the route parameter that is her own id
written in upper case. -/
def sendAliceUpperCase : Call :=
  Call.sendFriendRequest (Credential.verified aliceId) "AAAAAAAAAAAAAAAAAAAAAAAA"
    firstRequestId

/-- Alice accepts the first request. -/
def acceptAliceOwnRequest : Call :=
  Call.acceptFriendRequest (Credential.verified aliceId) "111111111111111111111111"

/-- The id `cccccccccccccccccccccccc`. -/
def carolId : ObjectId := ObjectId.replicate 12

/-- The id `dddddddddddddddddddddddd`. -/
def daveId : ObjectId := ObjectId.replicate 13

/-- An onboarded user who learns `learningLanguage`. -/
def learner (i : ObjectId) (fullName learningLanguage : String) : User :=
  { _id := i, fullName := fullName, email := fullName ++ "@example.com", password := "hash",
    bio := "hello", profilePic := "https://avatar.iran.liara.run/public/3.png",
    nativeLanguage := "english", learningLanguage := learningLanguage, location := "Paris",
    isOnboarded := true, friends := [] }

/-- A store with Alice and three onboarded users, who learn Spanish, German and
Spanish, in the order of their signup. -/
def learners : Store :=
  ⟨[alice, learner bobId "Bob" "spanish", learner carolId "Carol" "german",
    learner daveId "Dave" "spanish"], []⟩

/-- An onboarding body with the five required fields and nothing else. -/
def profileBody (fullName : String) : OnboardBody :=
  { fullName := some fullName, bio := some "hello", nativeLanguage := some "english",
    learningLanguage := some "spanish", location := some "Paris", email := none,
    password := none, profilePic := none, isOnboarded := none, friends := none }

/-- An onboarding body that also carries the keys `email`, `password` and
`friends`. -/
def overreachingBody : OnboardBody :=
  { profileBody "Alice" with
    email := some "mallory@example.com", password := some "plain",
    friends := some ["bbbbbbbbbbbbbbbbbbbbbbbb"] }

/-- Alice, onboarded. -/
def aliceOnboarded : User :=
  { alice with
    bio := "hello", nativeLanguage := "english", learningLanguage := "spanish",
    location := "Paris", isOnboarded := true }

/-- Bob, onboarded. -/
def bobOnboarded : User :=
  { bob with
    bio := "hola", nativeLanguage := "spanish", learningLanguage := "english",
    location := "Madrid", isOnboarded := true }

/-- The store with Alice and Bob onboarded, no friends and no requests. -/
def twoOnboarded : Store := ⟨[aliceOnboarded, bobOnboarded], []⟩

/-- A chat provider whose `createToken` raises, as it does without an API
secret. -/
def failingCreateToken : String → Except String String :=
  fun _ => Except.error "tokens can only be created server-side using the API Secret"

/-- A chat provider whose `createToken` returns a token for the user id. -/
def workingCreateToken : String → Except String String :=
  fun userId => Except.ok ("token-for-" ++ userId)

/-- The store after Alice and Bob signed up. -/
def twoUsers : Store := ⟨[alice, bob], []⟩

/-- The store after Alice sent Bob a friend request. -/
def requestSent : Store :=
  ⟨[alice, bob], [⟨firstRequestId, aliceId, bobId, Status.pending⟩]⟩

/-- The store after Bob accepted the request of Alice. -/
def requestAccepted : Store :=
  ⟨[{ alice with friends := [bobId] }, { bob with friends := [aliceId] }],
    [⟨firstRequestId, aliceId, bobId, Status.accepted⟩]⟩

/-! ## Basic lemmas -/

theorem hexValue_hexDigit : ∀ d : Fin 16, hexValue (hexDigit d) = some d := by decide

theorem mapM_hexValue_hexDigit (l : List (Fin 16)) :
    (l.map hexDigit).mapM hexValue = some l := by
  rw [← List.mapM'_eq_mapM]
  induction l with
  | nil => rfl
  | cons d l ih => simp [List.mapM'_cons, hexValue_hexDigit, ih]

theorem castObjectId_toHexString (i : ObjectId) : castObjectId i.toHexString = some i := by
  obtain ⟨l, h⟩ := i
  unfold castObjectId ObjectId.toHexString
  simp only [mapM_hexValue_hexDigit]
  simp [h]

theorem toHexString_injective {i j : ObjectId} (h : i.toHexString = j.toHexString) : i = j := by
  have := castObjectId_toHexString i
  rw [h, castObjectId_toHexString] at this
  exact (Option.some.inj this).symm

theorem includes_toHexString (l : List ObjectId) (x : ObjectId) :
    includes l x.toHexString = true ↔ x ∈ l := by
  simp only [includes, List.any_eq_true, beq_iff_eq]
  constructor
  · rintro ⟨i, hi, he⟩
    rw [← toHexString_injective he]; exact hi
  · intro h; exact ⟨x, h, rfl⟩

theorem mem_addToSet (l : List ObjectId) (x y : ObjectId) :
    y ∈ addToSet l x ↔ y ∈ l ∨ y = x := by
  unfold addToSet
  split
  · constructor
    · exact Or.inl
    · rintro (h | rfl)
      · exact h
      · assumption
  · simp

theorem find?_updateFirst_key {α κ : Type} [DecidableEq κ] (key : α → κ) (f : α → α)
    (hf : ∀ a, key (f a) = key a) (i j : κ) (l : List α) :
    (updateFirst (fun a => decide (key a = i)) f l).find? (fun a => decide (key a = j)) =
      (l.find? (fun a => decide (key a = j))).map (fun a => if key a = i then f a else a) := by
  induction l with
  | nil => rfl
  | cons a l ih =>
    by_cases hi : key a = i
    · by_cases hj : key a = j
      · simp [updateFirst, hi, hj, hf, List.find?_cons]
        rw [← hi, ← hj]; simp [hf]
      · have hij : i ≠ j := fun h => hj (hi.trans h)
        simp only [updateFirst, hi, decide_True, if_true, List.find?_cons, hf, hj, decide_False]
        cases hfind : l.find? (fun a => decide (key a = j)) with
        | none => simp [hfind, hij]
        | some b =>
          have hb := List.find?_some hfind
          simp at hb
          simp [hfind, hb, hij.symm, hij]
    · by_cases hj : key a = j
      · subst hj
        simp [updateFirst, hi, List.find?_cons]
      · simp [updateFirst, hi, hj, List.find?_cons, ih]

theorem User.findById_findByIdAndUpdate (s : Store) (i j : ObjectId) (f : User → User)
    (hf : ∀ u, (f u)._id = u._id) :
    User.findById (User.findByIdAndUpdate s i f) j =
      (User.findById s j).map (fun u => if u._id = i then f u else u) :=
  find?_updateFirst_key (fun u : User => u._id) f hf i j s.users

theorem User.findById_id {s : Store} {i : ObjectId} {u : User}
    (h : User.findById s i = some u) : u._id = i := by
  have := List.find?_some h
  simpa using this

theorem User.findById_addFriend (s : Store) (i j x : ObjectId) :
    User.findById (User.findByIdAndUpdate s i (addFriend x)) j =
      (User.findById s j).map (fun u => if u._id = i then addFriend x u else u) :=
  User.findById_findByIdAndUpdate s i j (addFriend x) (fun _ => rfl)

theorem mem_friends_addFriend (x y : ObjectId) (u : User) :
    y ∈ (addFriend x u).friends ↔ y ∈ u.friends ∨ y = x :=
  mem_addToSet u.friends x y

/-- The response and the store of `acceptFriendRequest` when the recipient calls it. -/
theorem acceptFriendRequest_ok (s : Store) (r : FriendRequest) (reqUser : User)
    (id : String) (hid : castObjectId id = some r._id)
    (hr : FriendRequest.findById s r._id = some r) (hme : reqUser._id = r.recipient) :
    acceptFriendRequest s reqUser id =
      (⟨200, Body.message "Friend request accepted"⟩,
        User.findByIdAndUpdate (User.findByIdAndUpdate (saveAccepted s r._id)
          r.sender (addFriend r.recipient)) r.recipient (addFriend r.sender)) := by
  simp [acceptFriendRequest, hid, hr, User.id, hme]

/-! ## C1: accepting a request makes the two users friends of each other -/

/-- C1: on any store, when the route parameter resolves to a friend request `r`
whose sender and recipient both resolve to users and the caller is the
recipient of `r`, `acceptFriendRequest` answers 200 and in the store it leaves
the recipient of `r` is among the friends of the sender of `r` and the sender of
`r` is among the friends of the recipient of `r`. -/
theorem acceptFriendRequest_makes_friends (s : Store) (r : FriendRequest) (reqUser : User)
    (id : String) (hid : castObjectId id = some r._id)
    (hr : FriendRequest.findById s r._id = some r)
    (hs : (User.findById s r.sender).isSome) (hrc : (User.findById s r.recipient).isSome)
    (hme : reqUser._id = r.recipient) :
    (acceptFriendRequest s reqUser id).1.status = 200 ∧
    (∃ a, User.findById (acceptFriendRequest s reqUser id).2 r.sender = some a ∧
      r.recipient ∈ a.friends) ∧
    (∃ b, User.findById (acceptFriendRequest s reqUser id).2 r.recipient = some b ∧
      r.sender ∈ b.friends) := by
  obtain ⟨a, ha⟩ := Option.isSome_iff_exists.mp hs
  obtain ⟨b, hb⟩ := Option.isSome_iff_exists.mp hrc
  have ha' : User.findById (saveAccepted s r._id) r.sender = some a := ha
  have hb' : User.findById (saveAccepted s r._id) r.recipient = some b := hb
  rw [acceptFriendRequest_ok s r reqUser id hid hr hme]
  have haid := User.findById_id ha
  have hbid := User.findById_id hb
  refine ⟨rfl, ?_, ?_⟩
  · rw [User.findById_addFriend, User.findById_addFriend, ha']
    refine ⟨_, rfl, ?_⟩
    simp only [haid, if_true]
    by_cases h : (addFriend r.recipient a)._id = r.recipient
    · rw [if_pos h]
      exact (mem_friends_addFriend _ _ _).mpr
        (Or.inl ((mem_friends_addFriend _ _ _).mpr (Or.inr rfl)))
    · rw [if_neg h]
      exact (mem_friends_addFriend _ _ _).mpr (Or.inr rfl)
  · rw [User.findById_addFriend, User.findById_addFriend, hb']
    refine ⟨_, rfl, ?_⟩
    have h2 : (if b._id = r.sender then addFriend r.recipient b else b)._id = r.recipient := by
      split
      · exact hbid
      · exact hbid
    simp only [h2, if_true]
    exact (mem_friends_addFriend _ _ _).mpr (Or.inr rfl)

/-- The theorem `acceptFriendRequest_makes_friends` at the store in which Alice
has sent Bob a request and Bob accepts it. -/
theorem acceptFriendRequest_makes_friends_witness :
    (acceptFriendRequest requestSent bob firstRequestId.toHexString).1.status = 200 ∧
    (∃ a, User.findById (acceptFriendRequest requestSent bob firstRequestId.toHexString).2
        aliceId = some a ∧ bobId ∈ a.friends) ∧
    (∃ b, User.findById (acceptFriendRequest requestSent bob firstRequestId.toHexString).2
        bobId = some b ∧ aliceId ∈ b.friends) :=
  acceptFriendRequest_makes_friends requestSent ⟨firstRequestId, aliceId, bobId, Status.pending⟩
    bob firstRequestId.toHexString (by decide) (by decide) (by decide) (by decide) (by decide)

/-! ## What each request does to the collection of friend requests -/

theorem reachable_run (cs : List Call) : Reachable (run Store.empty cs) := by
  suffices h : ∀ s, Reachable s → Reachable (run s cs) from h _ Reachable.empty
  induction cs with
  | nil => intro s hs; exact hs
  | cons c cs ih => intro s hs; exact ih _ (Reachable.step c hs)

theorem signup_friendRequests (s : Store) (body : SignupBody) (newId : ObjectId)
    (rand : Fin 100) (passwordHash : String) (providerOk : Bool) :
    (signup s body newId rand passwordHash providerOk).2.friendRequests = s.friendRequests := by
  unfold signup
  dsimp only
  repeat' split
  all_goals rfl

theorem onboard_friendRequests (s : Store) (reqUser : User) (body : OnboardBody)
    (providerOk : Bool) :
    (onboard s reqUser body providerOk).2.friendRequests = s.friendRequests := by
  unfold onboard
  dsimp only
  repeat' split
  all_goals rfl

/-- The two outcomes of `sendFriendRequest` on the store: nothing changes, or
one pending request from the caller to the resolved recipient is appended, and
then no request between the two was there. -/
theorem sendFriendRequest_store (s : Store) (reqUser : User) (id : String) (newId : ObjectId) :
    (sendFriendRequest s reqUser id newId).2 = s ∨
    ∃ recipientId, castObjectId id = some recipientId ∧
      s.friendRequests.find? (betweenPair reqUser._id recipientId) = none ∧
      (sendFriendRequest s reqUser id newId).2 =
        ⟨s.users, s.friendRequests ++ [⟨newId, reqUser._id, recipientId, Status.pending⟩]⟩ := by
  unfold sendFriendRequest
  dsimp only
  split
  · exact Or.inl rfl
  · split
    · exact Or.inl rfl
    · rename_i recipientId hcast
      split
      · exact Or.inl rfl
      · split
        · exact Or.inl rfl
        · split
          · exact Or.inl rfl
          · rename_i hfind
            split
            · exact Or.inl rfl
            · exact Or.inr ⟨recipientId, hcast, hfind, rfl⟩

theorem map_updateFirst {α β : Type} (p : α → Bool) (f : α → α) (g : α → β)
    (hf : ∀ a, g (f a) = g a) (l : List α) : (updateFirst p f l).map g = l.map g := by
  induction l with
  | nil => rfl
  | cons a l ih =>
    unfold updateFirst
    split_ifs
    · simp [hf]
    · simp [ih]

theorem acceptFriendRequest_users_or (s : Store) (reqUser : User) (id : String) :
    (acceptFriendRequest s reqUser id).2 = s ∨
    ∃ r, castObjectId id = some r._id ∧ FriendRequest.findById s r._id = some r ∧
      reqUser._id = r.recipient ∧
      (acceptFriendRequest s reqUser id).2 =
        User.findByIdAndUpdate (User.findByIdAndUpdate (saveAccepted s r._id)
          r.sender (addFriend r.recipient)) r.recipient (addFriend r.sender) := by
  unfold acceptFriendRequest
  split
  · exact Or.inl rfl
  · rename_i requestId hcast
    split
    · exact Or.inl rfl
    · rename_i friendRequest hfind
      split_ifs with h
      · exact Or.inl rfl
      · have hid : friendRequest._id = requestId := by
          have := List.find?_some hfind
          simpa using this
        refine Or.inr ⟨friendRequest, ?_, ?_, ?_, ?_⟩
        · rw [hid]; exact hcast
        · rw [hid]; exact hfind
        · have h' : friendRequest.recipient.toHexString = reqUser.id := by
            simpa using h
          exact (toHexString_injective h').symm
        · rw [hid]

theorem acceptFriendRequest_pairs (s : Store) (reqUser : User) (id : String) :
    (acceptFriendRequest s reqUser id).2.friendRequests.map FriendRequest.pair =
      s.friendRequests.map FriendRequest.pair := by
  rcases acceptFriendRequest_users_or s reqUser id with h | ⟨r, -, -, -, h⟩
  · rw [h]
  · rw [h]
    exact map_updateFirst _ markAccepted FriendRequest.pair (fun _ => rfl) s.friendRequests

/-- What a request does to the list of sender-recipient pairs: nothing, or
one pair is appended that no stored request lies between. -/
theorem handle_pairs (s : Store) (c : Call) :
    (handle s c).2.friendRequests.map FriendRequest.pair =
        s.friendRequests.map FriendRequest.pair ∨
    ∃ a b, s.friendRequests.find? (betweenPair a b) = none ∧
      (handle s c).2.friendRequests.map FriendRequest.pair =
        s.friendRequests.map FriendRequest.pair ++ [(a, b)] := by
  cases c with
  | signup body newId rand passwordHash providerOk =>
    exact Or.inl (congrArg _ (signup_friendRequests s body newId rand passwordHash providerOk))
  | onboard cred body providerOk =>
    unfold handle
    dsimp only
    split
    · exact Or.inl rfl
    · exact Or.inl (congrArg _ (onboard_friendRequests s _ body providerOk))
  | sendFriendRequest cred id newId =>
    unfold handle
    dsimp only
    split
    · exact Or.inl rfl
    · rename_i reqUser _
      rcases sendFriendRequest_store s reqUser id newId with h | ⟨rid, -, hfind, h⟩
      · rw [h]; exact Or.inl rfl
      · rw [h]; exact Or.inr ⟨reqUser._id, rid, hfind, by simp [FriendRequest.pair]⟩
  | acceptFriendRequest cred id =>
    unfold handle
    dsimp only
    split
    · exact Or.inl rfl
    · exact Or.inl (acceptFriendRequest_pairs s _ id)

theorem betweenPair_eq_true (a b : ObjectId) (r : FriendRequest) :
    betweenPair a b r = true ↔ r.pair = (a, b) ∨ r.pair = (b, a) := by
  simp [betweenPair, FriendRequest.pair, Prod.ext_iff]

/-- In every reachable store no two stored requests have the same unordered
pair of sender and recipient. -/
theorem reachable_pairwise_distinct (s : Store) (h : Reachable s) :
    (s.friendRequests.map FriendRequest.pair).Pairwise DistinctPairs := by
  induction h with
  | empty => exact List.Pairwise.nil
  | @step s c _ ih =>
    rcases handle_pairs s c with h | ⟨a, b, hfind, h⟩
    · rw [h]; exact ih
    · rw [h, List.pairwise_append]
      refine ⟨ih, List.pairwise_singleton _ _, ?_⟩
      intro p hp q hq
      obtain ⟨r, hr, rfl⟩ := List.mem_map.mp hp
      rw [List.mem_singleton] at hq
      subst hq
      have hn : betweenPair a b r = false := by
        have := List.find?_eq_none.mp hfind r hr
        simpa using this
      have hn' : ¬ (r.pair = (a, b) ∨ r.pair = (b, a)) := by
        rw [← betweenPair_eq_true, hn]; simp
      constructor
      · intro he; exact hn' (Or.inl he.symm)
      · intro he
        apply hn'
        right
        rw [Prod.ext_iff] at he ⊢
        exact ⟨he.2.symm, he.1.symm⟩

theorem length_filter_betweenPair_le_one (a b : ObjectId) (l : List FriendRequest)
    (h : (l.map FriendRequest.pair).Pairwise DistinctPairs) :
    (l.filter (betweenPair a b)).length ≤ 1 := by
  induction l with
  | nil => simp
  | cons r l ih =>
    rw [List.map_cons, List.pairwise_cons] at h
    by_cases hr : betweenPair a b r = true
    · have hnil : l.filter (betweenPair a b) = [] := by
        rw [List.filter_eq_nil_iff]
        intro q hq hqb
        have hd := h.1 q.pair (List.mem_map_of_mem _ hq)
        rw [betweenPair_eq_true] at hr hqb
        rcases hr with hr | hr <;> rcases hqb with hqb | hqb
        · exact hd.1 (hqb.trans hr.symm)
        · apply hd.2; rw [hqb, hr]
        · apply hd.2; rw [hqb, hr]
        · exact hd.1 (hqb.trans hr.symm)
      simp [List.filter_cons, hr, hnil]
    · simp only [List.filter_cons, hr]
      exact ih h.2

/-! ## C4: at most one request per unordered pair -/

/-- C4: in every store reachable from the empty store by requests handled one
at a time (signup and onboarding included, which leave the requests alone), at
most one stored friend request has `a` and `b` as its sender and recipient in
either order, for all ids `a` and `b`. -/
theorem reachable_at_most_one_request (s : Store) (h : Reachable s) (a b : ObjectId) :
    (requestsBetween s a b).length ≤ 1 :=
  length_filter_betweenPair_le_one a b s.friendRequests (reachable_pairwise_distinct s h)

/-- The theorem `reachable_at_most_one_request` at the store reached when Alice
and Bob sign up, Alice sends Bob a request and Bob then sends Alice one. -/
theorem reachable_at_most_one_request_witness :
    (requestsBetween (run Store.empty [signupAlice, signupBob,
      Call.sendFriendRequest (Credential.verified aliceId) bobId.toHexString firstRequestId,
      Call.sendFriendRequest (Credential.verified bobId) aliceId.toHexString secondRequestId])
      aliceId bobId).length ≤ 1 :=
  reachable_at_most_one_request _ (reachable_run _) aliceId bobId

/-! ## C2 and C3: what onboarding and an upper-case id do to the friends sets -/

/-- C2: the friends relation is not symmetric in every reachable store. After
Alice and Bob sign up and Alice onboards with a body that carries the key
`friends` with the id of Bob, the update `{...req.body, isOnboarded: true}`
stores it: Bob is in the friends of Alice and Alice is not in the friends of
Bob. -/
theorem onboard_breaks_friends_symmetry :
    Reachable (run Store.empty [signupAlice, signupBob, onboardAliceWithFriends]) ∧
    ((User.findById (run Store.empty [signupAlice, signupBob, onboardAliceWithFriends])
      aliceId).map (fun u => u.friends) = some [bobId]) ∧
    ((User.findById (run Store.empty [signupAlice, signupBob, onboardAliceWithFriends])
      bobId).map (fun u => u.friends) = some []) :=
  ⟨reachable_run _, by decide, by decide⟩

/-- C3: a user can end up in its own friends set. Alice signs up, sends a
friend request whose route parameter is her own id in upper case, and accepts
it: the stored friends of Alice are then Alice herself. -/
theorem upper_case_id_makes_self_friend :
    Reachable (run Store.empty [signupAlice, sendAliceUpperCase, acceptAliceOwnRequest]) ∧
    ((User.findById (run Store.empty [signupAlice, sendAliceUpperCase, acceptAliceOwnRequest])
      aliceId).map (fun u => u.friends) = some [aliceId]) :=
  ⟨reachable_run _, by decide⟩

/-! ## C5 and C6: the self-request guard compares strings -/

/-- C5: the route parameter `AAAAAAAAAAAAAAAAAAAAAAAA` identifies Alice, whose
id reads `aaaaaaaaaaaaaaaaaaaaaaaa`, and differs from it as a string; the
request of Alice to that parameter is answered 201 and a friend request from
Alice to Alice is stored. -/
theorem sendFriendRequest_upper_case_self :
    castObjectId "AAAAAAAAAAAAAAAAAAAAAAAA" = some alice._id ∧
    handle ⟨[alice], []⟩ sendAliceUpperCase =
      (⟨201, Body.friendRequest ⟨firstRequestId, aliceId, aliceId, Status.pending⟩⟩,
        ⟨[alice], [⟨firstRequestId, aliceId, aliceId, Status.pending⟩]⟩) := by
  decide

/-- C6: a reachable store holds a friend request whose sender is its
recipient: Alice signs up and sends a request to her own id in upper case. -/
theorem reachable_self_request :
    Reachable (run Store.empty [signupAlice, sendAliceUpperCase]) ∧
    (run Store.empty [signupAlice, sendAliceUpperCase]).friendRequests =
      [⟨firstRequestId, aliceId, aliceId, Status.pending⟩] :=
  ⟨reachable_run _, by decide⟩

/-! ## `sendFriendRequest` once the recipient is resolved -/

theorem id_ne_of_castObjectId {reqUser : User} {id : String} {j : ObjectId}
    (hid : castObjectId id = some j) (hne : reqUser._id ≠ j) : reqUser.id ≠ id := by
  intro h
  rw [← h, User.id, castObjectId_toHexString] at hid
  exact hne (Option.some.inj hid)

/-- The guards of `sendFriendRequest` that remain when the caller is not the
recipient and the route parameter resolves to the stored user `b`. -/
theorem sendFriendRequest_resolved (s : Store) (reqUser b : User) (id : String)
    (newId : ObjectId) (hab : reqUser._id ≠ b._id) (hid : castObjectId id = some b._id)
    (hb : User.findById s b._id = some b) :
    sendFriendRequest s reqUser id newId =
      if reqUser._id ∈ b.friends then
        (⟨400, Body.message "You are already friends with this user"⟩, s)
      else
        match s.friendRequests.find? (betweenPair reqUser._id b._id) with
        | some _ =>
          (⟨400, Body.message "A friend request already exists between you and this user"⟩, s)
        | none =>
          if s.friendRequests.any (fun r => decide (r._id = newId)) then
            (internalServerError, s)
          else
            (⟨201, Body.friendRequest ⟨newId, reqUser._id, b._id, Status.pending⟩⟩,
              ⟨s.users, s.friendRequests ++ [⟨newId, reqUser._id, b._id, Status.pending⟩]⟩) := by
  have hne : ¬ reqUser._id.toHexString = id := id_ne_of_castObjectId hid hab
  unfold sendFriendRequest
  simp only [User.id, if_neg hne, hid, hb]
  by_cases hf : reqUser._id ∈ b.friends
  · rw [if_pos hf, if_pos ((includes_toHexString _ _).mpr hf)]
  · rw [if_neg hf, if_neg (fun h => hf ((includes_toHexString _ _).mp h))]
    rfl

/-- The self-request guard on the route parameter that is the id of the caller,
character for character: 400 and the store as it was. -/
theorem sendFriendRequest_same_string (s : Store) (reqUser : User) (newId : ObjectId) :
    sendFriendRequest s reqUser reqUser.id newId =
      (⟨400, Body.message "You can't send friend request to yourself"⟩, s) := by
  unfold sendFriendRequest
  simp

/-! ## C7: no request to a user who already lists the caller as a friend -/

/-- C7: on any store, when the caller `reqUser` and the stored user `b` have
different ids, the route parameter resolves to `b` and the friends of `b`
contain the caller, `sendFriendRequest` answers 400 with the already-friends
message and leaves the store as it was, so no friend request is inserted. -/
theorem sendFriendRequest_already_friends (s : Store) (reqUser b : User) (id : String)
    (newId : ObjectId) (hab : reqUser._id ≠ b._id) (hid : castObjectId id = some b._id)
    (hb : User.findById s b._id = some b) (hfr : reqUser._id ∈ b.friends) :
    sendFriendRequest s reqUser id newId =
      (⟨400, Body.message "You are already friends with this user"⟩, s) := by
  rw [sendFriendRequest_resolved s reqUser b id newId hab hid hb, if_pos hfr]

/-- The theorem `sendFriendRequest_already_friends` when Alice sends a request to
Bob after Bob accepted her first one. -/
theorem sendFriendRequest_already_friends_witness :
    sendFriendRequest requestAccepted alice bobId.toHexString secondRequestId =
      (⟨400, Body.message "You are already friends with this user"⟩, requestAccepted) :=
  sendFriendRequest_already_friends requestAccepted alice { bob with friends := [aliceId] }
    bobId.toHexString secondRequestId (by decide) (by decide) (by decide) (by decide)

/-! ## C10: the request that goes through -/

/-- C10: on any store, when the caller `reqUser` and the stored user `b` have
different ids, the route parameter resolves to `b`, the friends of `b` do not
contain the caller, no stored request lies between the two in either order and
the generated id is not the id of a stored request, `sendFriendRequest` answers
201 with the created document, which has the caller as sender, `b` as
recipient and status pending, and the new store is the old one with that
document appended: the users are as they were. -/
theorem sendFriendRequest_creates (s : Store) (reqUser b : User) (id : String)
    (newId : ObjectId) (hab : reqUser._id ≠ b._id) (hid : castObjectId id = some b._id)
    (hb : User.findById s b._id = some b) (hnf : reqUser._id ∉ b.friends)
    (hnone : requestsBetween s reqUser._id b._id = [])
    (hfresh : ∀ r ∈ s.friendRequests, r._id ≠ newId) :
    sendFriendRequest s reqUser id newId =
      (⟨201, Body.friendRequest ⟨newId, reqUser._id, b._id, Status.pending⟩⟩,
        ⟨s.users, s.friendRequests ++ [⟨newId, reqUser._id, b._id, Status.pending⟩]⟩) := by
  have hfind : s.friendRequests.find? (betweenPair reqUser._id b._id) = none := by
    rw [List.find?_eq_none]
    intro r hr hbt
    have : r ∈ requestsBetween s reqUser._id b._id := List.mem_filter.mpr ⟨hr, hbt⟩
    rw [hnone] at this
    exact List.not_mem_nil _ this
  have hany : ¬ s.friendRequests.any (fun r => decide (r._id = newId)) = true := by
    simp only [List.any_eq_true, decide_eq_true_eq, not_exists, not_and]
    exact hfresh
  rw [sendFriendRequest_resolved s reqUser b id newId hab hid hb, if_neg hnf, hfind]
  simp only [if_neg hany]

/-- The theorem `sendFriendRequest_creates` when Alice sends Bob her first
request. -/
theorem sendFriendRequest_creates_witness :
    sendFriendRequest twoUsers alice bobId.toHexString firstRequestId =
      (⟨201, Body.friendRequest ⟨firstRequestId, aliceId, bobId, Status.pending⟩⟩,
        ⟨twoUsers.users,
          twoUsers.friendRequests ++ [⟨firstRequestId, aliceId, bobId, Status.pending⟩]⟩) :=
  sendFriendRequest_creates twoUsers alice bob bobId.toHexString firstRequestId
    (by decide) (by decide) (by decide) (by decide) (by decide) (by decide)

/-! ## C8: a request between two users who already have one -/

/-- C8, as stated, fails where the two are friends already: in the store in
which Bob accepted the request of Alice, Alice and Bob are distinct stored
users, a request from Alice to Bob is stored, and the request of Alice to Bob
is answered with the already-friends message, not with the
request-already-exists message. -/
theorem sendFriendRequest_existing_request_counterexample :
    (User.findById requestAccepted aliceId).isSome = true ∧
    (User.findById requestAccepted bobId).isSome = true ∧ aliceId ≠ bobId ∧
    (⟨firstRequestId, aliceId, bobId, Status.accepted⟩ : FriendRequest) ∈
      requestAccepted.friendRequests ∧
    (sendFriendRequest requestAccepted { alice with friends := [bobId] } bobId.toHexString
      secondRequestId).1 = ⟨400, Body.message "You are already friends with this user"⟩ ∧
    (sendFriendRequest requestAccepted { alice with friends := [bobId] } bobId.toHexString
      secondRequestId).1 ≠
        ⟨400, Body.message "A friend request already exists between you and this user"⟩ := by
  decide

/-- C8, amended: on any store, when the caller `reqUser` and the stored user `b`
have different ids and the route parameter resolves to `b`, then (first part)
if some stored request lies between the two in either order, whatever its
status, `sendFriendRequest` leaves the store as it was and answers 400, with
the request-already-exists message when the friends of `b` do not contain the
caller and with the already-friends message when they do; and (second part)
if the caller is a stored user and the request is answered 201, then a request
back, by a caller with the id of `b` to a route parameter that resolves to the
first caller, is answered 400 with one of the two messages and leaves the
store as the first request left it. -/
theorem sendFriendRequest_existing_request (s : Store) (reqUser b : User) (id : String)
    (newId : ObjectId) (hab : reqUser._id ≠ b._id) (hid : castObjectId id = some b._id)
    (hb : User.findById s b._id = some b) :
    (∀ q ∈ requestsBetween s reqUser._id b._id,
      (sendFriendRequest s reqUser id newId).2 = s ∧
      (reqUser._id ∉ b.friends → (sendFriendRequest s reqUser id newId).1 =
        ⟨400, Body.message "A friend request already exists between you and this user"⟩) ∧
      (reqUser._id ∈ b.friends → (sendFriendRequest s reqUser id newId).1 =
        ⟨400, Body.message "You are already friends with this user"⟩)) ∧
    (∀ (a reqUserB : User) (id' : String) (newId' : ObjectId),
      User.findById s reqUser._id = some a → reqUserB._id = b._id →
      castObjectId id' = some reqUser._id →
      (sendFriendRequest s reqUser id newId).1.status = 201 →
      (sendFriendRequest (sendFriendRequest s reqUser id newId).2 reqUserB id' newId').2 =
        (sendFriendRequest s reqUser id newId).2 ∧
      ((sendFriendRequest (sendFriendRequest s reqUser id newId).2 reqUserB id' newId').1 =
        ⟨400, Body.message "A friend request already exists between you and this user"⟩ ∨
       (sendFriendRequest (sendFriendRequest s reqUser id newId).2 reqUserB id' newId').1 =
        ⟨400, Body.message "You are already friends with this user"⟩)) := by
  have hres := sendFriendRequest_resolved s reqUser b id newId hab hid hb
  constructor
  · intro q hq
    obtain ⟨hqs, hqb⟩ := List.mem_filter.mp hq
    have hsome : (s.friendRequests.find? (betweenPair reqUser._id b._id)).isSome = true := by
      rw [List.find?_isSome]; exact ⟨q, hqs, hqb⟩
    obtain ⟨q', hq'⟩ := Option.isSome_iff_exists.mp hsome
    rw [hres, hq']
    by_cases hf : reqUser._id ∈ b.friends
    · simp [hf]
    · simp [hf]
  · intro a reqUserB id' newId' ha hB hid' hok
    have haid : a._id = reqUser._id := User.findById_id ha
    have hstore : (sendFriendRequest s reqUser id newId).2 =
        ⟨s.users, s.friendRequests ++ [⟨newId, reqUser._id, b._id, Status.pending⟩]⟩ := by
      rw [hres] at hok ⊢
      by_cases hf : reqUser._id ∈ b.friends
      · rw [if_pos hf] at hok; simp at hok
      · rw [if_neg hf] at hok ⊢
        cases hfind : s.friendRequests.find? (betweenPair reqUser._id b._id) with
        | some q => rw [hfind] at hok; simp at hok
        | none =>
          rw [hfind] at hok
          simp only at hok ⊢
          by_cases hany : s.friendRequests.any (fun r => decide (r._id = newId)) = true
          · rw [if_pos hany] at hok; simp [internalServerError] at hok
          · rw [if_neg hany]
    rw [hstore]
    have hab' : reqUserB._id ≠ a._id := by rw [hB, haid]; exact fun h => hab h.symm
    have ha' : User.findById (⟨s.users, s.friendRequests ++
        [⟨newId, reqUser._id, b._id, Status.pending⟩]⟩ : Store) a._id = some a := by
      rw [haid]; exact ha
    rw [sendFriendRequest_resolved _ reqUserB a id' newId' hab' (by rw [haid]; exact hid') ha']
    by_cases hf : reqUserB._id ∈ a.friends
    · simp [hf]
    · have hsome : ((s.friendRequests ++ [(⟨newId, reqUser._id, b._id, Status.pending⟩ :
          FriendRequest)]).find? (betweenPair reqUserB._id a._id)).isSome = true := by
        rw [List.find?_isSome]
        refine ⟨⟨newId, reqUser._id, b._id, Status.pending⟩, by simp, ?_⟩
        simp [betweenPair, hB, haid]
      obtain ⟨q', hq'⟩ := Option.isSome_iff_exists.mp hsome
      simp only [if_neg hf, hq']
      simp

/-- The theorem `sendFriendRequest_existing_request` in the store in which Alice
has sent Bob a request: a second request of Alice to Bob is answered with the
request-already-exists message. -/
theorem sendFriendRequest_existing_request_witness :
    (sendFriendRequest requestSent alice bobId.toHexString secondRequestId).1 =
      ⟨400, Body.message "A friend request already exists between you and this user"⟩ :=
  ((sendFriendRequest_existing_request requestSent alice bob bobId.toHexString secondRequestId
    (by decide) (by decide) (by decide)).1 ⟨firstRequestId, aliceId, bobId, Status.pending⟩
    (by decide)).2.1 (by decide)

/-! ## C9: a recipient that does not resolve -/

/-- C9, as stated, fails on a route parameter that is not an id: `abc` differs
from the id of Alice and resolves to no user, and the request of Alice to it is
answered 500, not 404. -/
theorem sendFriendRequest_unresolved_counterexample :
    "abc" ≠ alice.id ∧ castObjectId "abc" = none ∧
    sendFriendRequest twoUsers alice "abc" firstRequestId =
      (⟨500, Body.message "Internal Server Error"⟩, twoUsers) := by
  decide

/-- C9, amended: on any store, when the route parameter differs from the id of
the caller and resolves to no stored user, `sendFriendRequest` leaves the store
as it was; it answers 404 `Recipient not found` when the parameter is
well formed (twenty-four hex digits) and 500 `Internal Server Error` when it
is not. -/
theorem sendFriendRequest_unresolved (s : Store) (reqUser : User) (id : String)
    (newId : ObjectId) (hne : id ≠ reqUser.id)
    (hun : (castObjectId id).bind (User.findById s) = none) :
    (sendFriendRequest s reqUser id newId).2 = s ∧
    ((castObjectId id).isSome = true → (sendFriendRequest s reqUser id newId).1 =
      ⟨404, Body.message "Recipient not found"⟩) ∧
    (castObjectId id = none → (sendFriendRequest s reqUser id newId).1 =
      ⟨500, Body.message "Internal Server Error"⟩) := by
  have hne' : ¬ reqUser.id = id := fun h => hne h.symm
  unfold sendFriendRequest
  simp only [if_neg hne']
  cases hc : castObjectId id with
  | none => simp [internalServerError]
  | some i =>
    rw [hc] at hun
    have hfind : User.findById s i = none := hun
    simp [hfind]

/-- The theorem `sendFriendRequest_unresolved` when Alice sends a request to a
well-formed id that no user has. -/
theorem sendFriendRequest_unresolved_witness :
    (sendFriendRequest twoUsers alice "cccccccccccccccccccccccc" firstRequestId).1 =
      ⟨404, Body.message "Recipient not found"⟩ :=
  (sendFriendRequest_unresolved twoUsers alice "cccccccccccccccccccccccc" firstRequestId
    (by decide) (by decide)).2.1 (by decide)

/-! ## C11: only the recipient may accept -/

/-- C11: on any store, when the route parameter resolves to the stored friend
request `r` and the caller is not the recipient of `r` (the sender of `r`
included), `acceptFriendRequest` answers 403 and leaves the store as it was:
the status of `r` and every friends set are unchanged. -/
theorem acceptFriendRequest_forbidden (s : Store) (r : FriendRequest) (reqUser : User)
    (id : String) (hid : castObjectId id = some r._id)
    (hr : FriendRequest.findById s r._id = some r) (hne : reqUser._id ≠ r.recipient) :
    acceptFriendRequest s reqUser id =
      (⟨403, Body.message "You are not authorized to accept this request"⟩, s) := by
  have hstr : r.recipient.toHexString ≠ reqUser.id :=
    fun h => hne (toHexString_injective h).symm
  unfold acceptFriendRequest
  simp only [hid, hr, if_pos hstr]

/-- The theorem `acceptFriendRequest_forbidden` when Alice, the sender, tries to
accept the request she sent to Bob. -/
theorem acceptFriendRequest_forbidden_witness :
    acceptFriendRequest requestSent alice firstRequestId.toHexString =
      (⟨403, Body.message "You are not authorized to accept this request"⟩, requestSent) :=
  acceptFriendRequest_forbidden requestSent ⟨firstRequestId, aliceId, bobId, Status.pending⟩
    alice firstRequestId.toHexString (by decide) (by decide) (by decide)

/-! ## C12: a request id that does not resolve -/

/-- C12, as stated, fails on a route parameter that is not an id: `abc` resolves
to no stored friend request, and accepting it is answered 500, not 404. -/
theorem acceptFriendRequest_unresolved_counterexample :
    castObjectId "abc" = none ∧
    acceptFriendRequest requestSent bob "abc" =
      (⟨500, Body.message "Internal Server Error"⟩, requestSent) := by
  decide

/-- C12, amended: on any store, when the route parameter resolves to no stored
friend request, `acceptFriendRequest` leaves the whole store as it was; it
answers 404 `Friend request not found` when the parameter is well formed
(twenty-four hex digits) and 500 `Internal Server Error` when it is not. -/
theorem acceptFriendRequest_unresolved (s : Store) (reqUser : User) (id : String)
    (hun : (castObjectId id).bind (FriendRequest.findById s) = none) :
    (acceptFriendRequest s reqUser id).2 = s ∧
    ((castObjectId id).isSome = true → (acceptFriendRequest s reqUser id).1 =
      ⟨404, Body.message "Friend request not found"⟩) ∧
    (castObjectId id = none → (acceptFriendRequest s reqUser id).1 =
      ⟨500, Body.message "Internal Server Error"⟩) := by
  unfold acceptFriendRequest
  cases hc : castObjectId id with
  | none => simp [internalServerError]
  | some i =>
    rw [hc] at hun
    have hfind : FriendRequest.findById s i = none := hun
    simp [hfind]

/-- The theorem `acceptFriendRequest_unresolved` when Bob accepts a well-formed id
that no stored request has. -/
theorem acceptFriendRequest_unresolved_witness :
    (acceptFriendRequest requestSent bob secondRequestId.toHexString).1 =
      ⟨404, Body.message "Friend request not found"⟩ :=
  (acceptFriendRequest_unresolved requestSent bob secondRequestId.toHexString
    (by decide)).2.1 (by decide)

/-! ## C13: accepting twice -/

theorem updateFirst_eq_self {α : Type} (p : α → Bool) (f : α → α) (l : List α)
    (h : ∀ a, l.find? p = some a → f a = a) : updateFirst p f l = l := by
  induction l with
  | nil => rfl
  | cons a l ih =>
    unfold updateFirst
    by_cases hp : p a = true
    · rw [if_pos hp, h a (by simp [List.find?_cons, hp])]
    · rw [if_neg hp, ih (fun b hb => h b (by simpa [List.find?_cons, hp] using hb))]

theorem forall_mem_updateFirst {α : Type} (P : α → Prop) (p : α → Bool) (f : α → α)
    (hf : ∀ a, P a → P (f a)) (l : List α) (h : ∀ a ∈ l, P a) :
    ∀ a ∈ updateFirst p f l, P a := by
  induction l with
  | nil => intro a ha; exact absurd ha (List.not_mem_nil a)
  | cons b l ih =>
    unfold updateFirst
    split
    · intro a ha
      rcases List.mem_cons.mp ha with rfl | ha
      · exact hf b (h b (List.mem_cons_self b l))
      · exact h a (List.mem_cons_of_mem b ha)
    · intro a ha
      rcases List.mem_cons.mp ha with rfl | ha
      · exact h a (List.mem_cons_self a l)
      · exact ih (fun c hc => h c (List.mem_cons_of_mem b hc)) a ha

theorem nodup_addToSet (l : List ObjectId) (x : ObjectId) (h : l.Nodup) :
    (addToSet l x).Nodup := by
  unfold addToSet
  split
  · exact h
  · rename_i hx
    rw [List.nodup_append]
    refine ⟨h, List.nodup_singleton x, ?_⟩
    intro a ha hb
    rw [List.mem_singleton] at hb
    exact hx (hb ▸ ha)

theorem addFriend_eq_self (x : ObjectId) (u : User) (h : x ∈ u.friends) :
    addFriend x u = u := by
  unfold addFriend addToSet
  rw [if_pos h]

/-- What a 200 of `acceptFriendRequest` tells: the parameter resolved to a stored
request of which the caller is the recipient. -/
theorem acceptFriendRequest_of_ok (s : Store) (reqUser : User) (id : String)
    (hok : (acceptFriendRequest s reqUser id).1.status = 200) :
    ∃ r, castObjectId id = some r._id ∧ FriendRequest.findById s r._id = some r ∧
      reqUser._id = r.recipient := by
  unfold acceptFriendRequest at hok
  split at hok
  · simp [internalServerError] at hok
  · rename_i requestId hcast
    split at hok
    · simp at hok
    · rename_i friendRequest hfind
      split at hok
      · simp at hok
      · rename_i h
        have hid : friendRequest._id = requestId := by
          have := List.find?_some hfind
          simpa using this
        have h' : friendRequest.recipient.toHexString = reqUser.id := by simpa using h
        exact ⟨friendRequest, hid ▸ hcast, hid ▸ hfind, (toHexString_injective h').symm⟩

/-- After the two `$addToSet` updates of an acceptance each of the two users, when
stored, lists the other. -/
theorem friends_after_accept (s : Store) (x y : ObjectId) :
    (∀ a, User.findById (User.findByIdAndUpdate (User.findByIdAndUpdate s x (addFriend y))
        y (addFriend x)) x = some a → y ∈ a.friends) ∧
    (∀ b, User.findById (User.findByIdAndUpdate (User.findByIdAndUpdate s x (addFriend y))
        y (addFriend x)) y = some b → x ∈ b.friends) := by
  constructor
  · intro a ha
    rw [User.findById_addFriend, User.findById_addFriend] at ha
    cases h0 : User.findById s x with
    | none => rw [h0] at ha; simp at ha
    | some a0 =>
      rw [h0] at ha
      have hid := User.findById_id h0
      simp only [Option.map_some', hid, if_true, Option.some.injEq] at ha
      subst ha
      split
      · exact (mem_friends_addFriend _ _ _).mpr
          (Or.inl ((mem_friends_addFriend _ _ _).mpr (Or.inr rfl)))
      · exact (mem_friends_addFriend _ _ _).mpr (Or.inr rfl)
  · intro b hb
    rw [User.findById_addFriend, User.findById_addFriend] at hb
    cases h0 : User.findById s y with
    | none => rw [h0] at hb; simp at hb
    | some b0 =>
      rw [h0] at hb
      have hid := User.findById_id h0
      have h2 : (if b0._id = x then addFriend y b0 else b0)._id = y := by
        split
        · exact hid
        · exact hid
      simp only [Option.map_some', h2, if_true, Option.some.injEq] at hb
      subst hb
      exact (mem_friends_addFriend _ _ _).mpr (Or.inr rfl)

/-- C13: on any store, when `acceptFriendRequest` is answered 200 and is called
again with the same route parameter by a caller with the same id, the second
call is answered 200 as well and leaves the store exactly as the first call
left it (the status of the request and every friends list included); and when
no friends list had a duplicate entry before the first call, none has one
after it. -/
theorem acceptFriendRequest_twice (s : Store) (reqUser reqUser' : User) (id : String)
    (hok : (acceptFriendRequest s reqUser id).1.status = 200)
    (hsame : reqUser'._id = reqUser._id) :
    (acceptFriendRequest (acceptFriendRequest s reqUser id).2 reqUser' id).1.status = 200 ∧
    (acceptFriendRequest (acceptFriendRequest s reqUser id).2 reqUser' id).2 =
      (acceptFriendRequest s reqUser id).2 ∧
    ((∀ u ∈ s.users, u.friends.Nodup) →
      ∀ u ∈ (acceptFriendRequest s reqUser id).2.users, u.friends.Nodup) := by
  obtain ⟨r, hid, hr, hme⟩ := acceptFriendRequest_of_ok s reqUser id hok
  rw [acceptFriendRequest_ok s r reqUser id hid hr hme]
  have hr' : FriendRequest.findById (User.findByIdAndUpdate (User.findByIdAndUpdate
      (saveAccepted s r._id) r.sender (addFriend r.recipient)) r.recipient
      (addFriend r.sender)) (markAccepted r)._id = some (markAccepted r) := by
    show (updateFirst (fun q => decide (q._id = r._id)) markAccepted s.friendRequests).find?
      (fun q => decide (q._id = r._id)) = some (markAccepted r)
    rw [find?_updateFirst_key (fun q : FriendRequest => q._id) markAccepted (fun _ => rfl)]
    have hr0 : s.friendRequests.find? (fun q => decide (q._id = r._id)) = some r := hr
    rw [hr0]
    simp
  rw [acceptFriendRequest_ok _ (markAccepted r) reqUser' id hid hr' (hsame.trans hme)]
  refine ⟨rfl, ?_, ?_⟩
  · obtain ⟨hA, hB⟩ := friends_after_accept (saveAccepted s r._id) r.sender r.recipient
    have h1 : saveAccepted (User.findByIdAndUpdate (User.findByIdAndUpdate
        (saveAccepted s r._id) r.sender (addFriend r.recipient)) r.recipient
        (addFriend r.sender)) (markAccepted r)._id =
        User.findByIdAndUpdate (User.findByIdAndUpdate
        (saveAccepted s r._id) r.sender (addFriend r.recipient)) r.recipient
        (addFriend r.sender) := by
      show Store.mk _ _ = Store.mk _ _
      congr 1
      apply updateFirst_eq_self
      intro a ha
      have ha' : a = markAccepted r := by
        have := hr'.symm.trans ha
        exact (Option.some.inj this).symm
      rw [ha']; rfl
    rw [h1]
    have h2 : User.findByIdAndUpdate (User.findByIdAndUpdate (User.findByIdAndUpdate
        (saveAccepted s r._id) r.sender (addFriend r.recipient)) r.recipient
        (addFriend r.sender)) (markAccepted r).sender (addFriend (markAccepted r).recipient) =
        User.findByIdAndUpdate (User.findByIdAndUpdate
        (saveAccepted s r._id) r.sender (addFriend r.recipient)) r.recipient
        (addFriend r.sender) := by
      show Store.mk _ _ = Store.mk _ _
      congr 1
      apply updateFirst_eq_self
      intro a ha
      exact addFriend_eq_self _ _ (hA a ha)
    rw [h2]
    show Store.mk _ _ = Store.mk _ _
    congr 1
    apply updateFirst_eq_self
    intro b hb
    exact addFriend_eq_self _ _ (hB b hb)
  · intro hnd
    apply forall_mem_updateFirst (fun u : User => u.friends.Nodup)
    · intro a ha; exact nodup_addToSet _ _ ha
    · apply forall_mem_updateFirst (fun u : User => u.friends.Nodup)
      · intro a ha; exact nodup_addToSet _ _ ha
      · exact hnd

/-- The theorem `acceptFriendRequest_twice` when Bob accepts the request of Alice
a second time. -/
theorem acceptFriendRequest_twice_witness :
    (acceptFriendRequest (acceptFriendRequest requestSent bob firstRequestId.toHexString).2
      { bob with friends := [aliceId] } firstRequestId.toHexString).1.status = 200 ∧
    (acceptFriendRequest (acceptFriendRequest requestSent bob firstRequestId.toHexString).2
      { bob with friends := [aliceId] } firstRequestId.toHexString).2 =
      (acceptFriendRequest requestSent bob firstRequestId.toHexString).2 :=
  ⟨(acceptFriendRequest_twice requestSent bob { bob with friends := [aliceId] }
      firstRequestId.toHexString (by decide) (by decide)).1,
    (acceptFriendRequest_twice requestSent bob { bob with friends := [aliceId] }
      firstRequestId.toHexString (by decide) (by decide)).2.1⟩

/-! ## C14: a stored request stays stored, an accepted one stays accepted -/

theorem LaterOf.refl (r : FriendRequest) : LaterOf r r :=
  ⟨rfl, rfl, rfl, fun h => h⟩

theorem LaterOf.trans {r q t : FriendRequest} (h₁ : LaterOf r q) (h₂ : LaterOf q t) :
    LaterOf r t :=
  ⟨h₂.1.trans h₁.1, h₂.2.1.trans h₁.2.1, h₂.2.2.1.trans h₁.2.2.1,
    fun h => h₂.2.2.2 (h₁.2.2.2 h)⟩

theorem laterOf_markAccepted (r : FriendRequest) : LaterOf r (markAccepted r) :=
  ⟨rfl, rfl, rfl, fun _ => rfl⟩

theorem mem_updateFirst {α : Type} (p : α → Bool) (f : α → α) (l : List α) (a : α)
    (h : a ∈ l) : a ∈ updateFirst p f l ∨ f a ∈ updateFirst p f l := by
  induction l with
  | nil => exact absurd h (List.not_mem_nil a)
  | cons b l ih =>
    unfold updateFirst
    rcases List.mem_cons.mp h with rfl | h
    · split
      · exact Or.inr (List.mem_cons_self _ _)
      · exact Or.inl (List.mem_cons_self _ _)
    · split
      · exact Or.inl (List.mem_cons_of_mem _ h)
      · rcases ih h with h' | h'
        · exact Or.inl (List.mem_cons_of_mem _ h')
        · exact Or.inr (List.mem_cons_of_mem _ h')

theorem handle_later (s : Store) (c : Call) (r : FriendRequest) (hr : r ∈ s.friendRequests) :
    ∃ q ∈ (handle s c).2.friendRequests, LaterOf r q := by
  cases c with
  | signup body newId rand passwordHash providerOk =>
    refine ⟨r, ?_, LaterOf.refl r⟩
    show r ∈ (signup s body newId rand passwordHash providerOk).2.friendRequests
    rw [signup_friendRequests]; exact hr
  | onboard cred body providerOk =>
    refine ⟨r, ?_, LaterOf.refl r⟩
    unfold handle
    dsimp only
    split
    · exact hr
    · rw [onboard_friendRequests]; exact hr
  | sendFriendRequest cred id newId =>
    refine ⟨r, ?_, LaterOf.refl r⟩
    unfold handle
    dsimp only
    split
    · exact hr
    · rename_i reqUser _
      rcases sendFriendRequest_store s reqUser id newId with h | ⟨rid, -, -, h⟩
      · rw [h]; exact hr
      · rw [h]; exact List.mem_append_left _ hr
  | acceptFriendRequest cred id =>
    unfold handle
    dsimp only
    split
    · exact ⟨r, hr, LaterOf.refl r⟩
    · rename_i reqUser _
      rcases acceptFriendRequest_users_or s reqUser id with h | ⟨q, -, -, -, h⟩
      · rw [h]; exact ⟨r, hr, LaterOf.refl r⟩
      · rw [h]
        rcases mem_updateFirst (fun t => decide (t._id = q._id)) markAccepted
            s.friendRequests r hr with h' | h'
        · exact ⟨r, h', LaterOf.refl r⟩
        · exact ⟨markAccepted r, h', laterOf_markAccepted r⟩

theorem perform_later (s : Store) (o : Operation) (r : FriendRequest)
    (hr : r ∈ s.friendRequests) : ∃ q ∈ (perform s o).2.friendRequests, LaterOf r q := by
  cases o with
  | call c => exact handle_later s c r hr
  | getRecommendedUsers cred =>
    refine ⟨r, ?_, LaterOf.refl r⟩
    unfold perform; dsimp only; split <;> exact hr
  | getMyFriends cred =>
    refine ⟨r, ?_, LaterOf.refl r⟩
    unfold perform; dsimp only
    split
    · exact hr
    · unfold getMyFriends; split <;> exact hr
  | getFriendRequests cred =>
    refine ⟨r, ?_, LaterOf.refl r⟩
    unfold perform; dsimp only; split <;> exact hr
  | getOutgoingFriendReqs cred =>
    refine ⟨r, ?_, LaterOf.refl r⟩
    unfold perform; dsimp only; split <;> exact hr

/-- C14: from any store and along any sequence of operations performed one at
a time (`sendFriendRequest`, `acceptFriendRequest`, `getFriendRequests` and
`getOutgoingFriendReqs` among them), a friend request that is stored has a
later state in the store that is reached: a stored request with the same id,
sender and recipient, which is accepted if the request was accepted. No
operation deletes a request or sets it back to pending. -/
theorem stored_request_stays (s : Store) (os : List Operation) (r : FriendRequest)
    (hr : r ∈ s.friendRequests) : ∃ q ∈ (performAll s os).friendRequests, LaterOf r q := by
  induction os generalizing s r with
  | nil => exact ⟨r, hr, LaterOf.refl r⟩
  | cons o os ih =>
    obtain ⟨q, hq, hrq⟩ := perform_later s o r hr
    obtain ⟨t, ht, hqt⟩ := ih (perform s o).2 q hq
    exact ⟨t, ht, hrq.trans hqt⟩

/-- The theorem `stored_request_stays` for the accepted request of Alice to Bob,
along a second acceptance, a new request of Bob and the two listings. -/
theorem stored_request_stays_witness :
    ∃ q ∈ (performAll requestAccepted
        [Operation.call (Call.acceptFriendRequest (Credential.verified aliceId)
          firstRequestId.toHexString),
        Operation.call (Call.sendFriendRequest (Credential.verified bobId)
          aliceId.toHexString secondRequestId),
        Operation.getFriendRequests (Credential.verified aliceId),
        Operation.getOutgoingFriendReqs (Credential.verified aliceId)]).friendRequests,
      LaterOf ⟨firstRequestId, aliceId, bobId, Status.accepted⟩ q :=
  stored_request_stays requestAccepted _ ⟨firstRequestId, aliceId, bobId, Status.accepted⟩
    (by decide)

/-! ## C15 and C16: the recommended users -/

/-- C15: on any store and for any caller, `getRecommendedUsers` answers 200
with a list of user documents and leaves the store as it was; the list is a
sublist of the collection, and a user is in it exactly when it is stored, is
onboarded, is not the caller and is not among the friends of the caller. -/
theorem getRecommendedUsers_exact (s : Store) (reqUser : User) :
    ∃ docs, getRecommendedUsers s reqUser = (⟨200, Body.users docs⟩, s) ∧
      docs.Sublist s.users ∧
      ∀ u, u ∈ docs ↔ (u ∈ s.users ∧ u.isOnboarded = true ∧ u._id ≠ reqUser._id ∧
        u._id ∉ reqUser.friends) := by
  refine ⟨_, rfl, List.filter_sublist _, ?_⟩
  intro u
  simp only [List.mem_filter, Bool.and_eq_true, decide_eq_true_eq, Bool.not_eq_true',
    List.contains_eq_any_beq, List.any_eq_false, beq_iff_eq]
  constructor
  · rintro ⟨hu, ⟨hne, hnf⟩, hon⟩
    exact ⟨hu, hon, hne, fun hmem => hnf _ hmem rfl⟩
  · rintro ⟨hu, hon, hne, hnf⟩
    exact ⟨hu, ⟨hne, fun x hx hxe => hnf (hxe ▸ hx)⟩, hon⟩

/-- C16: the list `getRecommendedUsers` returns is not sorted by
`learningLanguage`. For Alice, on a store whose other users learn Spanish,
German and Spanish in the order of the collection, it returns them in that
order, and no antisymmetric order on languages, ascending or descending, has
Spanish, German, Spanish sorted. -/
theorem getRecommendedUsers_not_sorted :
    ∃ docs, perform learners (Operation.getRecommendedUsers (Credential.verified aliceId)) =
        (⟨200, Body.users docs⟩, learners) ∧
      docs.map (fun u => u.learningLanguage) = ["spanish", "german", "spanish"] ∧
      ∀ le : String → String → Prop, (∀ a b, le a b → le b a → a = b) →
        ¬ (docs.map (fun u => u.learningLanguage)).Pairwise le := by
  refine ⟨[learner bobId "Bob" "spanish", learner carolId "Carol" "german",
    learner daveId "Dave" "spanish"], by decide, by decide, ?_⟩
  intro le hanti hsorted
  have hl : [learner bobId "Bob" "spanish", learner carolId "Carol" "german",
      learner daveId "Dave" "spanish"].map (fun u => u.learningLanguage) =
      ["spanish", "german", "spanish"] := by decide
  rw [hl] at hsorted
  simp only [List.pairwise_cons, List.mem_cons, List.mem_singleton, forall_eq_or_imp,
    forall_eq] at hsorted
  have h1 : le "spanish" "german" := hsorted.1.1
  have h2 : le "german" "spanish" := hsorted.2.1.1
  exact absurd (hanti _ _ h1 h2) (by decide)

/-! ## C17: the required fields of onboarding -/

theorem falsy_iff (x : Option String) : falsy x = true ↔ Missing x := by
  unfold falsy Missing
  cases x with
  | none => simp
  | some v => simp

theorem missingFields_spec :
    ∀ b₁ b₂ b₃ b₄ b₅ : Bool,
      (([(b₁, "fullName"), (b₂, "bio"), (b₃, "nativeLanguage"), (b₄, "learningLanguage"),
          (b₅, "location")].filter (fun p => p.1)).map (fun p => p.2)).Sublist requiredFields ∧
      (∀ n ∈ requiredFields,
        (n ∈ ([(b₁, "fullName"), (b₂, "bio"), (b₃, "nativeLanguage"),
          (b₄, "learningLanguage"), (b₅, "location")].filter (fun p => p.1)).map (fun p => p.2)
          ↔ (b₁, n) = (true, "fullName") ∨ (b₂, n) = (true, "bio") ∨
            (b₃, n) = (true, "nativeLanguage") ∨ (b₄, n) = (true, "learningLanguage") ∨
            (b₅, n) = (true, "location"))) := by
  intro b₁ b₂ b₃ b₄ b₅
  cases b₁ <;> cases b₂ <;> cases b₃ <;> cases b₄ <;> cases b₅ <;> decide

/-- C17: for every store, caller and onboarding body, `onboard` answers 400
exactly when one of `fullName`, `bio`, `nativeLanguage`, `learningLanguage`,
`location` is absent or empty; the 400 carries the message
`All fields are required` with the list `missingFields`, and leaves the store
as it was; and that list is a sublist of the five names in their fixed order
(hence without duplicates) that holds a name exactly when its field is absent
or empty. -/
theorem onboard_invalid_input (s : Store) (reqUser : User) (body : OnboardBody)
    (providerOk : Bool) :
    ((onboard s reqUser body providerOk).1.status = 400 ↔
      (Missing body.fullName ∨ Missing body.bio ∨ Missing body.nativeLanguage ∨
        Missing body.learningLanguage ∨ Missing body.location)) ∧
    ((onboard s reqUser body providerOk).1.status = 400 →
      onboard s reqUser body providerOk =
        (⟨400, Body.missing "All fields are required" (missingFields body)⟩, s)) ∧
    (missingFields body).Sublist requiredFields ∧ (missingFields body).Nodup ∧
    ("fullName" ∈ missingFields body ↔ Missing body.fullName) ∧
    ("bio" ∈ missingFields body ↔ Missing body.bio) ∧
    ("nativeLanguage" ∈ missingFields body ↔ Missing body.nativeLanguage) ∧
    ("learningLanguage" ∈ missingFields body ↔ Missing body.learningLanguage) ∧
    ("location" ∈ missingFields body ↔ Missing body.location) := by
  have hstatus : (onboard s reqUser body providerOk).1.status = 400 ↔
      (falsy body.fullName || falsy body.bio || falsy body.nativeLanguage ||
        falsy body.learningLanguage || falsy body.location) = true := by
    unfold onboard
    dsimp only
    constructor
    · intro h
      by_contra hc
      rw [if_neg hc] at h
      revert h
      repeat' split
      all_goals simp [internalServerFailure]
    · intro h
      rw [if_pos h]
  have hspec := missingFields_spec (falsy body.fullName) (falsy body.bio)
    (falsy body.nativeLanguage) (falsy body.learningLanguage) (falsy body.location)
  have hsub : (missingFields body).Sublist requiredFields := hspec.1
  refine ⟨?_, ?_, hsub, hsub.nodup (by decide), ?_, ?_, ?_, ?_, ?_⟩
  · rw [hstatus]
    simp only [Bool.or_eq_true, falsy_iff, or_assoc]
  · intro h
    unfold onboard
    dsimp only
    rw [if_pos (hstatus.mp h)]
  · rw [← falsy_iff]
    exact (hspec.2 "fullName" (by decide)).trans (by simp)
  · rw [← falsy_iff]
    exact (hspec.2 "bio" (by decide)).trans (by simp)
  · rw [← falsy_iff]
    exact (hspec.2 "nativeLanguage" (by decide)).trans (by simp)
  · rw [← falsy_iff]
    exact (hspec.2 "learningLanguage" (by decide)).trans (by simp)
  · rw [← falsy_iff]
    exact (hspec.2 "location" (by decide)).trans (by simp)

/-! ## C18: the onboarding that goes through -/

/-- C18, as stated, fails on a full name that another user has: Bob is a stored
user, the body carries the five required fields with `fullName` equal to
`Alice`, the name of the other stored user, and the answer is 500 with the
store as it was. -/
theorem onboard_taken_name_counterexample :
    User.findById twoUsers bobId = some bob ∧ missingFields (profileBody "Alice") = [] ∧
    onboard twoUsers bob (profileBody "Alice") true =
      (⟨500, Body.failure "Internal Server Error"⟩, twoUsers) := by
  decide

theorem find?_updateFirst_const {α : Type} (p : α → Bool) (x : α) (l : List α)
    (hx : p x = true) (h : (l.find? p).isSome = true) :
    (updateFirst p (fun _ => x) l).find? p = some x := by
  induction l with
  | nil => simp at h
  | cons a l ih =>
    unfold updateFirst
    by_cases ha : p a = true
    · simp [ha, hx]
    · simp only [ha, Bool.false_eq_true, if_false, List.find?_cons] at h ⊢
      simp only [Bool.not_eq_true] at ha
      exact ih h

theorem getD_of_not_missing {x : Option String} (h : ¬ Missing x) (d : String) :
    x = some (x.getD d) := by
  cases x with
  | none => exact absurd (Or.inl rfl) h
  | some v => rfl

/-- C18, amended: on any store, when the caller resolves to the stored user
`user`, each of the five required fields of the body is present and not empty,
the `friends` key of the body (if any) casts, and no other stored user has the
`fullName` of the body or the `email` of the body (if any), `onboard` answers
200 with the updated user, which is also the user stored under the id of the
caller afterwards; that user has `isOnboarded = true`, whatever `isOnboarded`
the body carries, and its `fullName`, `bio`, `nativeLanguage`,
`learningLanguage` and `location` are those of the body. -/
theorem onboard_succeeds (s : Store) (reqUser user : User) (body : OnboardBody)
    (providerOk : Bool) (friends : Option (List ObjectId))
    (hu : User.findById s reqUser._id = some user)
    (h₁ : ¬ Missing body.fullName) (h₂ : ¬ Missing body.bio)
    (h₃ : ¬ Missing body.nativeLanguage) (h₄ : ¬ Missing body.learningLanguage)
    (h₅ : ¬ Missing body.location) (hcast : castFriends body.friends = some friends)
    (hname : ∀ v ∈ s.users, v._id ≠ reqUser._id → some v.fullName ≠ body.fullName)
    (hmail : ∀ v ∈ s.users, v._id ≠ reqUser._id → some v.email ≠ body.email) :
    ∃ updatedUser,
      (onboard s reqUser body providerOk).1 =
        ⟨200, Body.onboarded "Profile onboarded successfully" updatedUser⟩ ∧
      User.findById (onboard s reqUser body providerOk).2 reqUser._id = some updatedUser ∧
      updatedUser.isOnboarded = true ∧ body.fullName = some updatedUser.fullName ∧
      body.bio = some updatedUser.bio ∧
      body.nativeLanguage = some updatedUser.nativeLanguage ∧
      body.learningLanguage = some updatedUser.learningLanguage ∧
      body.location = some updatedUser.location := by
  have hf : ¬ (falsy body.fullName || falsy body.bio || falsy body.nativeLanguage ||
      falsy body.learningLanguage || falsy body.location) = true := by
    simp only [Bool.or_eq_true, falsy_iff]
    tauto
  have hid : user._id = reqUser._id := User.findById_id hu
  have hany : ¬ (s.users.any (fun v => decide (v._id ≠ reqUser._id) &&
      (decide (v.fullName = (applyOnboardUpdate user body friends).fullName) ||
        (body.email.isSome &&
          decide (v.email = (applyOnboardUpdate user body friends).email))))) = true := by
    simp only [List.any_eq_true, Bool.and_eq_true, Bool.or_eq_true, decide_eq_true_eq,
      not_exists, not_and, not_or]
    intro v hv hne
    constructor
    · intro hfn
      apply hname v hv hne
      rw [hfn]
      exact (getD_of_not_missing h₁ user.fullName).symm
    · intro hsome he
      cases hbe : body.email with
      | none => rw [hbe] at hsome; simp at hsome
      | some e =>
        apply hmail v hv hne
        rw [he, hbe]
        simp [applyOnboardUpdate, hbe]
  have hres : onboard s reqUser body providerOk =
      (⟨200, Body.onboarded "Profile onboarded successfully"
        (applyOnboardUpdate user body friends)⟩,
        User.findByIdAndUpdate s reqUser._id (fun _ => applyOnboardUpdate user body friends)) := by
    unfold onboard
    simp only [if_neg hf, hcast, hu, if_neg hany]
    cases providerOk <;> rfl
  refine ⟨applyOnboardUpdate user body friends, by rw [hres], ?_, rfl,
    getD_of_not_missing h₁ _, getD_of_not_missing h₂ _, getD_of_not_missing h₃ _,
    getD_of_not_missing h₄ _, getD_of_not_missing h₅ _⟩
  rw [hres]
  exact find?_updateFirst_const (fun u : User => decide (u._id = reqUser._id))
    (applyOnboardUpdate user body friends) s.users (by simp [applyOnboardUpdate, hid])
    (by rw [show s.users.find? (fun u => decide (u._id = reqUser._id)) = some user from hu]; rfl)

/-- The theorem `onboard_succeeds` when Alice onboards under her own name with a
body that carries `isOnboarded: false`. -/
theorem onboard_succeeds_witness :
    ∃ updatedUser,
      (onboard twoUsers alice { profileBody "Alice" with isOnboarded := some false } false).1 =
        ⟨200, Body.onboarded "Profile onboarded successfully" updatedUser⟩ ∧
      updatedUser.isOnboarded = true :=
  (onboard_succeeds twoUsers alice alice { profileBody "Alice" with isOnboarded := some false }
    false none (by decide) (by decide) (by decide) (by decide) (by decide) (by decide)
    (by decide) (by decide) (by decide)).imp (fun _ h => ⟨h.1, h.2.2.1⟩)

/-! ## C19: what onboarding writes -/

/-- C19: onboarding writes more than the profile. Alice onboards with a body
that also carries the keys `email`, `password` and `friends`: the answer is
200 and the stored email, password and friends of Alice are those of the
body, the password as it was sent. -/
theorem onboard_overwrites_account_fields :
    (onboard twoUsers alice overreachingBody true).1.status = 200 ∧
    (User.findById (onboard twoUsers alice overreachingBody true).2 aliceId).map
      (fun u => (u.email, u.password, u.friends)) =
      some ("mallory@example.com", "plain", [bobId]) ∧
    (User.findById twoUsers aliceId).map (fun u => (u.email, u.password, u.friends)) =
      some ("alice@example.com", "hashA", []) := by
  decide

/-! ## C20: a failing chat provider -/

/-- C20: `upsertStreamUser` always returns, whether the provider call returns
or raises; `onboard` and `signup` give the same response and the same store
when the provider call raises as when it returns, on every store and request;
and with a failing provider the onboarding of Alice is answered 200 and her
signup 201. -/
theorem provider_failure_is_swallowed :
    (∀ providerOk userData, ∃ v, upsertStreamUser providerOk userData = Except.ok v) ∧
    (∀ s reqUser body, onboard s reqUser body false = onboard s reqUser body true) ∧
    (∀ s body newId rand passwordHash,
      signup s body newId rand passwordHash false = signup s body newId rand passwordHash true) ∧
    (onboard twoUsers alice (profileBody "Alice") false).1.status = 200 ∧
    (signup Store.empty ⟨some "alice@example.com", some "password", some "Alice"⟩ aliceId 0
      "hashA" false).1.status = 201 := by
  refine ⟨?_, ?_, ?_, by decide, by decide⟩
  · intro providerOk userData
    cases providerOk
    · exact ⟨none, rfl⟩
    · exact ⟨some userData, rfl⟩
  · intro s reqUser body
    unfold onboard
    dsimp only
    repeat' split
    all_goals rfl
  · intro s body newId rand passwordHash
    unfold signup
    dsimp only
    repeat' split
    all_goals rfl

/-! ## C21: the session guard -/

/-- C21: a credential that fails verification is not answered 401. On every
store `protectRoute` answers a token that `jwt.verify` raises on with 500
`Internal Server Error`: the raise goes to the `catch` block and the branch
`Unauthorized - Invalid token` is never reached. The other cases are as the
claim says: no token and a verified token of no stored user are answered 401,
and a verified token of a stored user attaches that user, without its
password. -/
theorem protectRoute_rejected_token (s : Store) :
    protectRoute s Credential.rejected =
      Except.error ⟨500, Body.message "Internal Server Error"⟩ ∧
    protectRoute s Credential.absent =
      Except.error ⟨401, Body.message "Unauthorized  - No token provided"⟩ ∧
    (∀ userId, User.findById s userId = none →
      protectRoute s (Credential.verified userId) =
        Except.error ⟨401, Body.message "Unauthorized - User not found"⟩) ∧
    (∀ userId user, User.findById s userId = some user →
      protectRoute s (Credential.verified userId) =
        Except.ok (selectWithoutPassword user)) := by
  refine ⟨rfl, rfl, ?_, ?_⟩
  · intro userId h
    simp [protectRoute, h]
  · intro userId user h
    simp [protectRoute, h]

/-! ## C22: the chat token -/

/-- C22: when the provider's token creation raises, `getStreamToken` answers 200
with a body that has no token, for every user and whatever the error: the
helper `generateStreamToken` swallows the error and returns `undefined`. With
a provider that mints a token the answer is 200 with that token. -/
theorem getStreamToken_failing_provider :
    (∀ (createToken : String → Except String String) (reqUser : User) (e : String),
      createToken reqUser.id = Except.error e →
        getStreamToken createToken reqUser = ⟨200, Body.token none⟩) ∧
    getStreamToken failingCreateToken alice = ⟨200, Body.token none⟩ ∧
    getStreamToken workingCreateToken alice =
      ⟨200, Body.token (some "token-for-aaaaaaaaaaaaaaaaaaaaaaaa")⟩ := by
  refine ⟨?_, by decide, by decide⟩
  intro createToken reqUser e h
  simp [getStreamToken, generateStreamToken, h]

/-! ## C23 and C24: the listings of friend requests -/

theorem status_accepted_of_mem_updateFirst (i : ObjectId) (l : List FriendRequest)
    (hnd : (l.map (fun r => r._id)).Nodup) (q : FriendRequest)
    (hq : q ∈ updateFirst (fun r => decide (r._id = i)) markAccepted l) (hid : q._id = i) :
    q.status = Status.accepted := by
  induction l with
  | nil => exact absurd hq (List.not_mem_nil q)
  | cons a l ih =>
    rw [List.map_cons, List.nodup_cons] at hnd
    unfold updateFirst at hq
    by_cases ha : a._id = i
    · simp only [ha, decide_True, if_true] at hq
      rcases List.mem_cons.mp hq with rfl | hq
      · rfl
      · exact absurd (List.mem_map_of_mem (fun r => r._id) hq) (by show q._id ∉ _; rw [hid, ← ha]; exact hnd.1)
    · simp only [ha, decide_False, Bool.false_eq_true, if_false] at hq
      rcases List.mem_cons.mp hq with rfl | hq
      · exact absurd hid ha
      · exact ih hnd.2 hq

/-- C23: on any store and for any caller, `getOutgoingFriendReqs` answers 200
with a list of documents and leaves the store as it was; the documents are,
in the order of the collection, the stored requests whose sender is the caller
and whose status is pending, each with its id, sender and status as stored and
its recipient replaced by the selected profile fields of that user; and when
the ids of the stored requests are pairwise different and `acceptFriendRequest`
is answered 200 on a route parameter that resolves to the id `i`, no document
of the listing on the resulting store has the id `i`, for any caller. -/
theorem getOutgoingFriendReqs_exact (s : Store) (reqUser : User) :
    ∃ docs, getOutgoingFriendReqs s reqUser = (⟨200, Body.requests docs⟩, s) ∧
      List.Forall₂ (fun (r : FriendRequest) (d : PopulatedRequest) =>
          d._id = r._id ∧ d.sender = Ref.id r.sender ∧
          d.recipient = Ref.doc ((User.findById s r.recipient).map selectProfile) ∧
          d.status = r.status)
        (s.friendRequests.filter (fun r =>
          decide (r.sender = reqUser._id ∧ r.status = Status.pending))) docs ∧
      (∀ (accepter : User) (id : String) (i : ObjectId) (lister : User),
        (s.friendRequests.map (fun r => r._id)).Nodup → castObjectId id = some i →
        (acceptFriendRequest s accepter id).1.status = 200 →
        ∀ docs', getOutgoingFriendReqs (acceptFriendRequest s accepter id).2 lister =
            (⟨200, Body.requests docs'⟩, (acceptFriendRequest s accepter id).2) →
          ∀ d ∈ docs', d._id ≠ i) := by
  refine ⟨_, rfl, ?_, ?_⟩
  · have hfilter : (fun r : FriendRequest => decide (r.sender = reqUser._id) &&
        decide (r.status = Status.pending)) =
        (fun r => decide (r.sender = reqUser._id ∧ r.status = Status.pending)) := by
      funext r; simp [Bool.decide_and]
    rw [hfilter, List.forall₂_map_right_iff]
    exact List.forall₂_same.mpr (fun r _ => ⟨rfl, rfl, rfl, rfl⟩)
  · intro accepter id i lister hnd hcast hok docs' hdocs d hd hdi
    obtain ⟨r, hid, hr, hme⟩ := acceptFriendRequest_of_ok s accepter id hok
    have hi : r._id = i := Option.some.inj (hid.symm.trans hcast)
    rw [acceptFriendRequest_ok s r accepter id hid hr hme] at hdocs
    have hlist := congrArg (fun p : Response × Store => p.1.body) hdocs
    simp only [getOutgoingFriendReqs, Body.requests.injEq] at hlist
    rw [← hlist] at hd
    obtain ⟨q, hq, rfl⟩ := List.mem_map.mp hd
    obtain ⟨hqmem, hqp⟩ := List.mem_filter.mp hq
    have hqacc := status_accepted_of_mem_updateFirst r._id s.friendRequests hnd q hqmem
      (hdi.trans hi.symm)
    simp only [Bool.and_eq_true, decide_eq_true_eq] at hqp
    rw [hqacc] at hqp
    exact absurd hqp.2 (by decide)

/-- The theorem `getOutgoingFriendReqs_exact` on the store in which Alice has sent
Bob a request: once Bob has accepted it, it is in no listing of outgoing
requests of Alice. -/
theorem getOutgoingFriendReqs_exact_witness :
    ∀ docs', getOutgoingFriendReqs
        (acceptFriendRequest requestSent bob firstRequestId.toHexString).2 alice =
        (⟨200, Body.requests docs'⟩,
          (acceptFriendRequest requestSent bob firstRequestId.toHexString).2) →
      ∀ d ∈ docs', d._id ≠ firstRequestId := by
  obtain ⟨_, _, _, h⟩ := getOutgoingFriendReqs_exact requestSent alice
  exact h bob firstRequestId.toHexString firstRequestId alice (by decide) (by decide)
    (by decide)

/-- C24: on any store and for any caller, `getFriendRequests` answers 200 with
two lists and leaves the store as it was; `incomingReqs` are, in the order of
the collection, the stored requests whose recipient is the caller and whose
status is pending, each with its sender replaced by the selected profile
fields; `acceptedReqs` are the stored requests whose sender is the caller and
whose status is accepted, each with its recipient replaced by the selected
profile fields; and no document is in both lists. -/
theorem getFriendRequests_exact (s : Store) (reqUser : User) :
    ∃ incomingReqs acceptedReqs,
      getFriendRequests s reqUser =
        (⟨200, Body.incomingAndAccepted incomingReqs acceptedReqs⟩, s) ∧
      List.Forall₂ (fun (r : FriendRequest) (d : PopulatedRequest) =>
          d._id = r._id ∧ d.recipient = Ref.id r.recipient ∧
          d.sender = Ref.doc ((User.findById s r.sender).map selectProfile) ∧
          d.status = r.status)
        (s.friendRequests.filter (fun r =>
          decide (r.recipient = reqUser._id ∧ r.status = Status.pending))) incomingReqs ∧
      List.Forall₂ (fun (r : FriendRequest) (d : PopulatedRequest) =>
          d._id = r._id ∧ d.sender = Ref.id r.sender ∧
          d.recipient = Ref.doc ((User.findById s r.recipient).map selectNameAndPic) ∧
          d.status = r.status)
        (s.friendRequests.filter (fun r =>
          decide (r.sender = reqUser._id ∧ r.status = Status.accepted))) acceptedReqs ∧
      (∀ d ∈ incomingReqs, d ∉ acceptedReqs) := by
  have h₁ : (fun r : FriendRequest => decide (r.recipient = reqUser._id) &&
      decide (r.status = Status.pending)) =
      (fun r => decide (r.recipient = reqUser._id ∧ r.status = Status.pending)) := by
    funext r; simp [Bool.decide_and]
  have h₂ : (fun r : FriendRequest => decide (r.sender = reqUser._id) &&
      decide (r.status = Status.accepted)) =
      (fun r => decide (r.sender = reqUser._id ∧ r.status = Status.accepted)) := by
    funext r; simp [Bool.decide_and]
  refine ⟨_, _, rfl, ?_, ?_, ?_⟩
  · rw [h₁, List.forall₂_map_right_iff]
    exact List.forall₂_same.mpr (fun r _ => ⟨rfl, rfl, rfl, rfl⟩)
  · rw [h₂, List.forall₂_map_right_iff]
    exact List.forall₂_same.mpr (fun r _ => ⟨rfl, rfl, rfl, rfl⟩)
  · intro d hd hd'
    obtain ⟨r, hr, rfl⟩ := List.mem_map.mp hd
    obtain ⟨q, hq, hqe⟩ := List.mem_map.mp hd'
    have hrp := (List.mem_filter.mp hr).2
    have hqa := (List.mem_filter.mp hq).2
    simp only [Bool.and_eq_true, decide_eq_true_eq] at hrp hqa
    have hst := congrArg PopulatedRequest.status hqe
    simp only at hst
    rw [hrp.2, hqa.2] at hst
    exact absurd hst (by decide)

/-! ## C25: the scenario of Alice and Bob -/

theorem toHexString_ne {i j : ObjectId} (h : i ≠ j) : i.toHexString ≠ j.toHexString :=
  fun he => h (toHexString_injective he)

/-- C25: for any two users `a` and `b` with different ids and no friends, on
the store that holds just the two and no request: the request of `a` to the id
of `b` is answered 201 with a pending request `r` from `a` to `b`, which is
stored; the acceptance of `r` by `b` is answered 200 and leaves `r` accepted,
the friends of `a` equal to `[b]` and the friends of `b` equal to `[a]`; after
that the outgoing requests of `a` are the empty list and the friends of `b`
are the one profile of `a` (id, `fullName`, `profilePic`, `nativeLanguage`,
`learningLanguage`). Each call goes through `protectRoute`. -/
theorem scenario_send_accept_list (a b : User) (newId : ObjectId) (hab : a._id ≠ b._id)
    (ha : a.friends = []) (hb : b.friends = []) :
    perform ⟨[a, b], []⟩
        (Operation.call (Call.sendFriendRequest (Credential.verified a._id) b.id newId)) =
      (⟨201, Body.friendRequest ⟨newId, a._id, b._id, Status.pending⟩⟩,
        ⟨[a, b], [⟨newId, a._id, b._id, Status.pending⟩]⟩) ∧
    perform ⟨[a, b], [⟨newId, a._id, b._id, Status.pending⟩]⟩
        (Operation.call (Call.acceptFriendRequest (Credential.verified b._id)
          newId.toHexString)) =
      (⟨200, Body.message "Friend request accepted"⟩,
        ⟨[{ a with friends := [b._id] }, { b with friends := [a._id] }],
          [⟨newId, a._id, b._id, Status.accepted⟩]⟩) ∧
    perform ⟨[{ a with friends := [b._id] }, { b with friends := [a._id] }],
          [⟨newId, a._id, b._id, Status.accepted⟩]⟩
        (Operation.getOutgoingFriendReqs (Credential.verified a._id)) =
      (⟨200, Body.requests []⟩,
        ⟨[{ a with friends := [b._id] }, { b with friends := [a._id] }],
          [⟨newId, a._id, b._id, Status.accepted⟩]⟩) ∧
    perform ⟨[{ a with friends := [b._id] }, { b with friends := [a._id] }],
          [⟨newId, a._id, b._id, Status.accepted⟩]⟩
        (Operation.getMyFriends (Credential.verified b._id)) =
      (⟨200, Body.profiles [⟨a._id, a.fullName, a.profilePic, some a.nativeLanguage,
          some a.learningLanguage⟩]⟩,
        ⟨[{ a with friends := [b._id] }, { b with friends := [a._id] }],
          [⟨newId, a._id, b._id, Status.accepted⟩]⟩) := by
  have hba : b._id ≠ a._id := fun h => hab h.symm
  have hstr : a._id.toHexString ≠ b._id.toHexString := toHexString_ne hab
  have hstr' : b._id.toHexString ≠ a._id.toHexString := toHexString_ne hba
  refine ⟨?_, ?_, ?_, ?_⟩
  · simp [perform, handle, protectRoute, User.findById, selectWithoutPassword,
      sendFriendRequest, User.id, castObjectId_toHexString, hab, hba, hstr, hstr', includes,
      hb, FriendRequest.defaultStatus]
  · simp [perform, handle, protectRoute, User.findById, selectWithoutPassword,
      acceptFriendRequest, User.id, castObjectId_toHexString, hab, hba, hstr, hstr',
      FriendRequest.findById, saveAccepted, User.findByIdAndUpdate, updateFirst, addFriend,
      addToSet, markAccepted, ha, hb]
  · simp [perform, protectRoute, User.findById, selectWithoutPassword,
      getOutgoingFriendReqs]
  · simp [perform, protectRoute, User.findById, selectWithoutPassword, getMyFriends, hab, hba,
      selectProfile]

/-- The theorem `scenario_send_accept_list` for Alice and Bob, both onboarded. -/
theorem scenario_send_accept_list_witness :
    perform twoOnboarded
        (Operation.call (Call.sendFriendRequest (Credential.verified aliceId)
          "bbbbbbbbbbbbbbbbbbbbbbbb" firstRequestId)) =
      (⟨201, Body.friendRequest ⟨firstRequestId, aliceId, bobId, Status.pending⟩⟩,
        ⟨[aliceOnboarded, bobOnboarded], [⟨firstRequestId, aliceId, bobId, Status.pending⟩]⟩) :=
  (scenario_send_accept_list aliceOnboarded bobOnboarded firstRequestId (by decide) (by decide)
    (by decide)).1

/-! ## C27 and C28: the routes of the client -/

/-- C27: once the auth query has settled, whatever `authUser` is: each of the
routes `/`, `/notifications`, `/call/:id` and `/chat/:id` renders its page
exactly when there is a user and the user is onboarded, is a `Navigate` to
`/login` when there is no user and a `Navigate` to `/onboarding` when there is
a user who is not onboarded; `/login` and `/signup` render their page exactly
when there is no user; and `/onboarding` renders its page exactly when there
is a user who is not onboarded. -/
theorem App_route_guard (authUser : Option AuthUser) :
    (∀ r ∈ [RouteId.home, RouteId.notifications, RouteId.call, RouteId.chat],
      ((∃ showSidebar, App (AuthQuery.settled authUser) r = Element.page r.page showSidebar) ↔
        ∃ user, authUser = some user ∧ user.isOnboarded = true) ∧
      (authUser = none → App (AuthQuery.settled authUser) r = Element.navigate "/login") ∧
      (∀ user, authUser = some user → user.isOnboarded = false →
        App (AuthQuery.settled authUser) r = Element.navigate "/onboarding")) ∧
    (∀ r ∈ [RouteId.login, RouteId.signup],
      ((∃ showSidebar, App (AuthQuery.settled authUser) r = Element.page r.page showSidebar) ↔
        authUser = none)) ∧
    ((∃ showSidebar, App (AuthQuery.settled authUser) RouteId.onboarding =
        Element.page Page.onboarding showSidebar) ↔
      ∃ user, authUser = some user ∧ user.isOnboarded = false) := by
  rcases authUser with _ | ⟨_ | _⟩ <;> simp [App, routeElement, RouteId.page]

/-- C28: once the auth query has settled, whatever `authUser` is, every route
of `App` either renders a page or is a `Navigate` whose target is the path of
a route of `App` that renders a page: no chain of redirects is longer than
one. -/
theorem App_redirects_once (authUser : Option AuthUser) (r : RouteId) :
    (∃ p showSidebar, App (AuthQuery.settled authUser) r = Element.page p showSidebar) ∨
    (∃ target r', App (AuthQuery.settled authUser) r = Element.navigate target ∧
      routeOfPath target = some r' ∧ r' ∈ allRoutes ∧
      ∃ p showSidebar, App (AuthQuery.settled authUser) r' = Element.page p showSidebar) := by
  rcases authUser with _ | ⟨_ | _⟩ <;> cases r <;>
    first
    | exact Or.inl ⟨_, _, rfl⟩
    | exact Or.inr ⟨_, RouteId.login, rfl, by decide, by decide, _, _, rfl⟩
    | exact Or.inr ⟨_, RouteId.onboarding, rfl, by decide, by decide, _, _, rfl⟩
    | exact Or.inr ⟨_, RouteId.home, rfl, by decide, by decide, _, _, rfl⟩

/-! ## C30: the email check of signup -/

theorem classPlus_iff (l : List Char) :
    classPlus l = true ↔ l ≠ [] ∧ ∀ c ∈ l, isJsSpace c = false ∧ c ≠ '@' := by
  unfold classPlus
  cases l with
  | nil => simp
  | cons a l => simp

theorem getElem?_append_length {α : Type} (a : List α) (x : α) (r : List α) :
    (a ++ x :: r)[a.length]? = some x := by
  induction a with
  | nil => simp
  | cons y a ih => simpa using ih

/-- The regular expression matches exactly the strings `a@b.c` with `a`, `b`, `c`
in `[^\s@]+`. -/
theorem emailRegexTest_iff_split (email : String) :
    emailRegexTest email = true ↔
      ∃ a b c, email.data = a ++ '@' :: (b ++ '.' :: c) ∧
        classPlus a = true ∧ classPlus b = true ∧ classPlus c = true := by
  unfold emailRegexTest
  simp only [List.any_eq_true, List.mem_range, Bool.and_eq_true, decide_eq_true_eq,
    beq_iff_eq]
  constructor
  · rintro ⟨i, hi, j, hj, ⟨⟨⟨⟨⟨hij, hat⟩, hdot⟩, ha⟩, hb⟩, hc⟩⟩
    refine ⟨_, _, _, ?_, ha, hb, hc⟩
    have hi' : email.data[i]? = some '@' := by simpa using hat
    have hj' : email.data[j]? = some '.' := by simpa using hdot
    have h1 : email.data = email.data.take i ++ '@' :: email.data.drop (i + 1) := by
      conv_lhs => rw [← List.take_append_drop i email.data]
      congr 1
      rw [List.drop_eq_getElem_cons hi]
      congr 1
      have := List.getElem?_eq_getElem hi
      rw [this] at hi'
      exact Option.some.inj hi'
    have h2 : email.data.drop (i + 1) =
        (email.data.take j).drop (i + 1) ++ '.' :: email.data.drop (j + 1) := by
      conv_lhs => rw [← List.take_append_drop j email.data]
      rw [List.drop_append_of_le_length (by rw [List.length_take]; omega)]
      congr 1
      rw [List.drop_eq_getElem_cons hj]
      congr 1
      have := List.getElem?_eq_getElem hj
      rw [this] at hj'
      exact Option.some.inj hj'
    rw [← h2]
    exact h1
  · rintro ⟨a, b, c, hsplit, ha, hb, hc⟩
    have hlen : email.data.length = a.length + (1 + (b.length + (1 + c.length))) := by
      rw [hsplit]; simp; omega
    refine ⟨a.length, by omega, a.length + 1 + b.length, by omega, ?_⟩
    refine ⟨⟨⟨⟨⟨by omega, ?_⟩, ?_⟩, ?_⟩, ?_⟩, ?_⟩
    · rw [hsplit, List.get?_eq_getElem?]
      exact getElem?_append_length a '@' _
    · rw [hsplit, List.get?_eq_getElem?]
      have := getElem?_append_length (a ++ '@' :: b) '.' c
      rw [show a ++ '@' :: (b ++ '.' :: c) = (a ++ '@' :: b) ++ '.' :: c by simp,
        show a.length + 1 + b.length = (a ++ '@' :: b).length by simp; omega]
      exact this
    · rw [hsplit]; simpa using ha
    · rw [hsplit]
      have : List.take (a.length + 1 + b.length) (a ++ '@' :: (b ++ '.' :: c)) =
          a ++ '@' :: b := by
        rw [List.take_append_eq_append_take]
        simp [List.take_of_length_le, Nat.add_assoc, List.take_cons]
      rw [this]
      simpa using hb
    · rw [hsplit]
      have : List.drop (a.length + 1 + b.length + 1) (a ++ '@' :: (b ++ '.' :: c)) = c := by
        rw [show a ++ '@' :: (b ++ '.' :: c) = (a ++ '@' :: b ++ ['.']) ++ c by simp]
        exact List.drop_left' (by simp; omega)
      rw [this]
      exact hc

theorem isJsSpace_at_dot : isJsSpace '@' = false ∧ isJsSpace '.' = false := by decide

/-- The regular expression accepts exactly the strings of the shape put in
words. -/
theorem emailRegexTest_iff_shape (email : String) :
    emailRegexTest email = true ↔ EmailShape email := by
  rw [emailRegexTest_iff_split]
  unfold EmailShape
  constructor
  · rintro ⟨a, b, c, hsplit, ha, hb, hc⟩
    rw [classPlus_iff] at ha hb hc
    have hna : '@' ∉ a := fun h => (ha.2 _ h).2 rfl
    have hnb : '@' ∉ b := fun h => (hb.2 _ h).2 rfl
    have hnc : '@' ∉ c := fun h => (hc.2 _ h).2 rfl
    refine ⟨?_, ?_, a, b ++ '.' :: c, hsplit, ha.1, b, c, rfl, hb.1, hc.1⟩
    · intro ch hch
      rw [hsplit] at hch
      simp only [List.mem_append, List.mem_cons] at hch
      rcases hch with h | rfl | h | rfl | h
      · exact (ha.2 _ h).1
      · exact isJsSpace_at_dot.1
      · exact (hb.2 _ h).1
      · exact isJsSpace_at_dot.2
      · exact (hc.2 _ h).1
    · rw [hsplit]
      simp [List.count_append, List.count_cons, List.count_eq_zero.mpr hna,
        List.count_eq_zero.mpr hnb, List.count_eq_zero.mpr hnc]
  · rintro ⟨hns, hcount, a, d, hsplit, ha, b, c, hd, hb, hc⟩
    subst hd
    rw [hsplit] at hcount hns
    simp only [List.count_append, List.count_cons, beq_self_eq_true, if_true] at hcount
    have hca : a.count '@' = 0 := by omega
    have hcb : b.count '@' = 0 := by omega
    have hcc : c.count '@' = 0 := by omega
    rw [List.count_eq_zero] at hca hcb hcc
    refine ⟨a, b, c, hsplit, ?_, ?_, ?_⟩
    · rw [classPlus_iff]
      exact ⟨ha, fun ch h => ⟨hns ch (by simp [h]), fun he => hca (he ▸ h)⟩⟩
    · rw [classPlus_iff]
      exact ⟨hb, fun ch h => ⟨hns ch (by simp [h]), fun he => hcb (he ▸ h)⟩⟩
    · rw [classPlus_iff]
      exact ⟨hc, fun ch h => ⟨hns ch (by simp [h]), fun he => hcc (he ▸ h)⟩⟩

/-- C30, as stated, fails on the answer to a rejected email when an earlier
check fails first: the email `bad` is not empty and does not have the shape,
and with the password `short` the answer is 400 with the message about the
password, not `Invalid email format`. -/
theorem signup_email_check_counterexample :
    ¬ EmailShape "bad" ∧
    signup Store.empty ⟨some "bad", some "short", some "Alice"⟩ aliceId 0 "hashA" true =
      (⟨400, Body.message "Password must be at least 8 characters long"⟩, Store.empty) := by
  refine ⟨?_, by decide⟩
  rw [← emailRegexTest_iff_shape]
  decide

/-- C30, amended: the email check of `signup` accepts a string exactly when it
has the shape put in words (no whitespace, exactly one `@` with a non-empty
part before it, and after it a `.` with at least one character on each side);
and for every store and request whose email is not empty and does not have
the shape, `signup` answers 400 and leaves the store as it was, so that no
user is created, the message being `Invalid email format` when the password
and the full name are present and the password has at least eight
characters. -/
theorem signup_email_check :
    (∀ email, emailRegexTest email = true ↔ EmailShape email) ∧
    (∀ (s : Store) (body : SignupBody) (newId : ObjectId) (rand : Fin 100)
      (passwordHash : String) (providerOk : Bool) (email : String),
      body.email = some email → email ≠ "" → ¬ EmailShape email →
      (signup s body newId rand passwordHash providerOk).1.status = 400 ∧
      (signup s body newId rand passwordHash providerOk).2 = s ∧
      (¬ Missing body.password → ¬ Missing body.fullName →
        8 ≤ jsLength (body.password.getD "") →
        (signup s body newId rand passwordHash providerOk).1 =
          ⟨400, Body.message "Invalid email format"⟩)) := by
  refine ⟨emailRegexTest_iff_shape, ?_⟩
  intro s body newId rand passwordHash providerOk email hemail hne hshape
  have htest : emailRegexTest email = false := by
    cases h : emailRegexTest email with
    | false => rfl
    | true => exact absurd ((emailRegexTest_iff_shape email).mp h) hshape
  unfold signup
  simp only [hemail, Option.getD_some, htest, Bool.not_false, if_true]
  refine ⟨?_, ?_, ?_⟩
  · split
    · rfl
    · split <;> rfl
  · split
    · rfl
    · split <;> rfl
  · intro hp hf hlen
    have hfalsy : ¬ (falsy (some email) || falsy body.password || falsy body.fullName) = true := by
      simp only [Bool.or_eq_true, falsy_iff, not_or]
      refine ⟨⟨?_, hp⟩, hf⟩
      rintro (h | h)
      · exact absurd h (by simp)
      · exact hne (Option.some.inj h)
    rw [if_neg hfalsy, if_neg (by omega)]

/-- The theorem `signup_email_check` on the email `bad` with a password of eight
characters. -/
theorem signup_email_check_witness :
    (signup Store.empty ⟨some "bad", some "password", some "Alice"⟩ aliceId 0 "hashA" true).1 =
      ⟨400, Body.message "Invalid email format"⟩ :=
  (signup_email_check.2 Store.empty ⟨some "bad", some "password", some "Alice"⟩ aliceId 0
    "hashA" true "bad" rfl (by decide)
    (fun h => absurd ((emailRegexTest_iff_shape "bad").mpr h) (by decide))).2.2
    (by decide) (by decide) (by decide)

/-! ## C29: every friendship is backed by an accepted request -/

theorem mem_updateFirst_cases {α : Type} (p : α → Bool) (f : α → α) (l : List α) (x : α)
    (h : x ∈ updateFirst p f l) : x ∈ l ∨ ∃ a ∈ l, p a = true ∧ x = f a := by
  induction l with
  | nil => exact absurd h (List.not_mem_nil x)
  | cons b l ih =>
    unfold updateFirst at h
    by_cases hb : p b = true
    · rw [if_pos hb] at h
      rcases List.mem_cons.mp h with rfl | h
      · exact Or.inr ⟨b, List.mem_cons_self _ _, hb, rfl⟩
      · exact Or.inl (List.mem_cons_of_mem _ h)
    · rw [if_neg hb] at h
      rcases List.mem_cons.mp h with rfl | h
      · exact Or.inl (List.mem_cons_self _ _)
      · rcases ih h with h' | ⟨a, ha, hpa, rfl⟩
        · exact Or.inl (List.mem_cons_of_mem _ h')
        · exact Or.inr ⟨a, List.mem_cons_of_mem _ ha, hpa, rfl⟩

theorem mem_updateFirst_of_find? {α : Type} (p : α → Bool) (f : α → α) (l : List α) (a : α)
    (h : l.find? p = some a) : f a ∈ updateFirst p f l := by
  induction l with
  | nil => simp at h
  | cons b l ih =>
    unfold updateFirst
    by_cases hb : p b = true
    · rw [if_pos hb]
      simp only [List.find?_cons, hb, Option.some.injEq] at h
      rw [h]; exact List.mem_cons_self _ _
    · rw [if_neg hb]
      simp only [Bool.not_eq_true] at hb
      simp only [List.find?_cons, hb] at h
      exact List.mem_cons_of_mem _ (ih h)

/-- What `signup` does to the store: nothing, or one user without friends is
appended. -/
theorem signup_store (s : Store) (body : SignupBody) (newId : ObjectId) (rand : Fin 100)
    (passwordHash : String) (providerOk : Bool) :
    (signup s body newId rand passwordHash providerOk).2 = s ∨
    ∃ u, u.friends = [] ∧
      (signup s body newId rand passwordHash providerOk).2 = ⟨s.users ++ [u], s.friendRequests⟩ := by
  unfold signup
  dsimp only
  split
  · exact Or.inl rfl
  · split
    · exact Or.inl rfl
    · split
      · exact Or.inl rfl
      · split
        · exact Or.inl rfl
        · split
          · exact Or.inl rfl
          · split <;> exact Or.inr ⟨_, rfl, rfl⟩

/-- The user `protectRoute` attaches has the id of a stored user. -/
theorem protectRoute_ok (s : Store) (cred : Credential) (reqUser : User)
    (h : protectRoute s cred = Except.ok reqUser) :
    (User.findById s reqUser._id).isSome = true := by
  unfold protectRoute at h
  split at h
  · simp at h
  · simp [internalServerError] at h
  · split at h
    · simp at h
    · rename_i userId user hfind
      simp only [Except.ok.injEq] at h
      subst h
      have hid := User.findById_id hfind
      show (User.findById s user._id).isSome = true
      rw [hid, hfind]; rfl

/-- The two outcomes of `sendFriendRequest` on the store, with the recipient of
the new request a stored user. -/
theorem sendFriendRequest_store_recipient (s : Store) (reqUser : User) (id : String)
    (newId : ObjectId) :
    (sendFriendRequest s reqUser id newId).2 = s ∨
    ∃ recipientId, (User.findById s recipientId).isSome = true ∧
      (sendFriendRequest s reqUser id newId).2 =
        ⟨s.users, s.friendRequests ++ [⟨newId, reqUser._id, recipientId, Status.pending⟩]⟩ := by
  unfold sendFriendRequest
  dsimp only
  split
  · exact Or.inl rfl
  · split
    · exact Or.inl rfl
    · rename_i recipientId hcast
      split
      · exact Or.inl rfl
      · rename_i recipient hrec
        split
        · exact Or.inl rfl
        · split
          · exact Or.inl rfl
          · split
            · exact Or.inl rfl
            · exact Or.inr ⟨recipientId, by rw [hrec]; rfl, rfl⟩

theorem forall_mem_updateFirst_of {α : Type} (P : α → Prop) (p : α → Bool) (f : α → α)
    (l : List α) (hf : ∀ a ∈ l, p a = true → P a → P (f a)) (h : ∀ a ∈ l, P a) :
    ∀ a ∈ updateFirst p f l, P a := by
  intro a ha
  rcases mem_updateFirst_cases p f l a ha with h' | ⟨b, hb, hpb, rfl⟩
  · exact h a h'
  · exact hf b hb hpb (h b hb)

theorem isSome_findById_addFriend (s : Store) (i j x : ObjectId)
    (h : (User.findById s j).isSome = true) :
    (User.findById (User.findByIdAndUpdate s i (addFriend x)) j).isSome = true := by
  rw [User.findById_addFriend]
  cases hf : User.findById s j with
  | none => rw [hf] at h; exact absurd h (by simp)
  | some u => rfl

theorem signup_preserves (s : Store) (body : SignupBody) (newId : ObjectId) (rand : Fin 100)
    (passwordHash : String) (providerOk : Bool)
    (h₁ : FriendsBacked s) (h₂ : EndpointsStored s) :
    FriendsBacked (signup s body newId rand passwordHash providerOk).2 ∧
    EndpointsStored (signup s body newId rand passwordHash providerOk).2 := by
  rcases signup_store s body newId rand passwordHash providerOk with h | ⟨u, hu, h⟩
  · rw [h]; exact ⟨h₁, h₂⟩
  · rw [h]
    constructor
    · intro v hv b hb
      rcases List.mem_append.mp hv with hv | hv
      · exact h₁ v hv b hb
      · rw [List.mem_singleton] at hv
        rw [hv, hu] at hb
        exact absurd hb (List.not_mem_nil b)
    · intro r hr
      have := h₂ r hr
      simp only [User.findById, List.find?_append, Option.isSome_or, Bool.or_eq_true] at this ⊢
      exact ⟨Or.inl this.1, Or.inl this.2⟩

theorem sendFriendRequest_preserves (s : Store) (reqUser : User) (id : String)
    (newId : ObjectId) (hreq : (User.findById s reqUser._id).isSome = true)
    (h₁ : FriendsBacked s) (h₂ : EndpointsStored s) :
    FriendsBacked (sendFriendRequest s reqUser id newId).2 ∧
    EndpointsStored (sendFriendRequest s reqUser id newId).2 := by
  rcases sendFriendRequest_store_recipient s reqUser id newId with h | ⟨rid, hrid, h⟩
  · rw [h]; exact ⟨h₁, h₂⟩
  · rw [h]
    constructor
    · intro v hv b hb
      obtain ⟨r, hr, hacc⟩ := h₁ v hv b hb
      exact ⟨r, List.mem_append_left _ hr, hacc⟩
    · intro r hr
      rcases List.mem_append.mp hr with hr | hr
      · exact h₂ r hr
      · rw [List.mem_singleton] at hr
        subst hr
        exact ⟨hreq, hrid⟩

theorem acceptFriendRequest_preserves (s : Store) (reqUser : User) (id : String)
    (h₁ : FriendsBacked s) (h₂ : EndpointsStored s) :
    FriendsBacked (acceptFriendRequest s reqUser id).2 ∧
    EndpointsStored (acceptFriendRequest s reqUser id).2 := by
  rcases acceptFriendRequest_users_or s reqUser id with h | ⟨r, -, hr, -, h⟩
  · rw [h]; exact ⟨h₁, h₂⟩
  · rw [h]
    have hA : ∀ x y, (∃ q ∈ s.friendRequests, q.status = Status.accepted ∧
        betweenPair x y q = true) →
        ∃ q ∈ updateFirst (fun t => decide (t._id = r._id)) markAccepted s.friendRequests,
          q.status = Status.accepted ∧ betweenPair x y q = true := by
      rintro x y ⟨q, hq, hacc, hbt⟩
      rcases mem_updateFirst (fun t => decide (t._id = r._id)) markAccepted
          s.friendRequests q hq with h' | h'
      · exact ⟨q, h', hacc, hbt⟩
      · exact ⟨markAccepted q, h', rfl, hbt⟩
    have hmem : markAccepted r ∈
        updateFirst (fun t => decide (t._id = r._id)) markAccepted s.friendRequests :=
      mem_updateFirst_of_find? _ _ _ r hr
    have hB₁ : ∃ q ∈ updateFirst (fun t => decide (t._id = r._id)) markAccepted
        s.friendRequests, q.status = Status.accepted ∧
        betweenPair r.sender r.recipient q = true :=
      ⟨markAccepted r, hmem, rfl, by simp [betweenPair, markAccepted]⟩
    have hB₂ : ∃ q ∈ updateFirst (fun t => decide (t._id = r._id)) markAccepted
        s.friendRequests, q.status = Status.accepted ∧
        betweenPair r.recipient r.sender q = true :=
      ⟨markAccepted r, hmem, rfl, by simp [betweenPair, markAccepted]⟩
    constructor
    · show ∀ u ∈ updateFirst (fun u => decide (u._id = r.recipient)) (addFriend r.sender)
        (updateFirst (fun u => decide (u._id = r.sender)) (addFriend r.recipient) s.users),
        ∀ b ∈ u.friends, ∃ q ∈ updateFirst (fun t => decide (t._id = r._id)) markAccepted
          s.friendRequests, q.status = Status.accepted ∧ betweenPair u._id b q = true
      apply forall_mem_updateFirst_of
      · intro u _ hu hP b hb
        have hid : u._id = r.recipient := by simpa using hu
        rcases (mem_friends_addFriend _ _ _).mp hb with hb | rfl
        · exact hP b hb
        · show ∃ q ∈ _, q.status = Status.accepted ∧ betweenPair u._id r.sender q = true
          rw [hid]; exact hB₂
      · apply forall_mem_updateFirst_of
        · intro u _ hu hP b hb
          have hid : u._id = r.sender := by simpa using hu
          rcases (mem_friends_addFriend _ _ _).mp hb with hb | rfl
          · exact hP b hb
          · show ∃ q ∈ _, q.status = Status.accepted ∧ betweenPair u._id r.recipient q = true
            rw [hid]; exact hB₁
        · intro u hu b hb
          exact hA _ _ (h₁ u hu b hb)
    · intro q hq
      have hq' : q ∈ updateFirst (fun t => decide (t._id = r._id)) markAccepted
          s.friendRequests := hq
      have hends : (User.findById s q.sender).isSome = true ∧
          (User.findById s q.recipient).isSome = true := by
        rcases mem_updateFirst_cases _ _ _ q hq' with h' | ⟨a, ha, -, rfl⟩
        · exact h₂ q h'
        · exact h₂ a ha
      exact ⟨isSome_findById_addFriend _ _ _ _ (isSome_findById_addFriend _ _ _ _ hends.1),
        isSome_findById_addFriend _ _ _ _ (isSome_findById_addFriend _ _ _ _ hends.2)⟩

/-- Without onboarding, every reachable store has its friendships backed by
accepted requests and the endpoints of its requests stored. -/
theorem reachable_backed (s : Store) (h : ReachableWithoutOnboard s) :
    FriendsBacked s ∧ EndpointsStored s := by
  induction h with
  | empty =>
    exact ⟨fun u hu => absurd hu (List.not_mem_nil u),
      fun r hr => absurd hr (List.not_mem_nil r)⟩
  | @step s c hc _ ih =>
    cases c with
    | signup body newId rand passwordHash providerOk =>
      exact signup_preserves s body newId rand passwordHash providerOk ih.1 ih.2
    | onboard cred body providerOk => exact absurd hc (by simp [Call.isOnboard])
    | sendFriendRequest cred id newId =>
      unfold handle
      dsimp only
      split
      · exact ih
      · rename_i reqUser hp
        exact sendFriendRequest_preserves s reqUser id newId
          (protectRoute_ok s cred reqUser hp) ih.1 ih.2
    | acceptFriendRequest cred id =>
      unfold handle
      dsimp only
      split
      · exact ih
      · exact acceptFriendRequest_preserves s _ id ih.1 ih.2

theorem reachableWithoutOnboard_run (cs : List Call)
    (hcs : cs.all (fun c => !c.isOnboard) = true) :
    ReachableWithoutOnboard (run Store.empty cs) := by
  suffices h : ∀ s, ReachableWithoutOnboard s → ReachableWithoutOnboard (run s cs) from
    h _ ReachableWithoutOnboard.empty
  induction cs with
  | nil => intro s hs; exact hs
  | cons c cs ih =>
    intro s hs
    simp only [List.all_cons, Bool.and_eq_true, Bool.not_eq_true'] at hcs
    exact ih hcs.2 _ (ReachableWithoutOnboard.step c hcs.1 hs)

/-- A request between two users of whom a stored accepted request exists, and
whose recipient is stored, is answered 400 and changes nothing. -/
theorem sendFriendRequest_fails_of_request (s : Store) (reqUser : User) (id : String)
    (newId : ObjectId) (x : ObjectId) (hcast : castObjectId id = some x)
    (hx : (User.findById s x).isSome = true)
    (hreq : ∃ r ∈ s.friendRequests, betweenPair reqUser._id x r = true) :
    (sendFriendRequest s reqUser id newId).1.status = 400 ∧
    (sendFriendRequest s reqUser id newId).2 = s := by
  obtain ⟨u, hu⟩ := Option.isSome_iff_exists.mp hx
  obtain ⟨r, hr, hbt⟩ := hreq
  have hsome : (s.friendRequests.find? (betweenPair reqUser._id x)).isSome = true := by
    rw [List.find?_isSome]; exact ⟨r, hr, hbt⟩
  obtain ⟨q, hq⟩ := Option.isSome_iff_exists.mp hsome
  unfold sendFriendRequest
  dsimp only
  split
  · exact ⟨rfl, rfl⟩
  · simp only [hcast, hu]
    split
    · exact ⟨rfl, rfl⟩
    · simp only [hq]
      simp

/-- C29: in every store reachable from the empty store by signups, friend
requests and acceptances handled one at a time, for every stored user `a` and
every id `b` among the friends of `a`: a stored request with status accepted
has `a` and `b` as its sender and recipient in one of the two orders; and a
friend request between the two is answered 400 and changes nothing in both
directions, from a caller with the id of `a` to a route parameter that
resolves to `b` and from a caller with the id `b` to a route parameter that
resolves to the id of `a`. -/
theorem friends_backed_by_accepted (s : Store) (h : ReachableWithoutOnboard s) (a : User)
    (ha : a ∈ s.users) (b : ObjectId) (hb : b ∈ a.friends) :
    (∃ r ∈ s.friendRequests, r.status = Status.accepted ∧
      (r.pair = (a._id, b) ∨ r.pair = (b, a._id))) ∧
    (∀ (reqUser : User) (id : String) (newId : ObjectId),
      (reqUser._id = a._id ∧ castObjectId id = some b) ∨
        (reqUser._id = b ∧ castObjectId id = some a._id) →
      (sendFriendRequest s reqUser id newId).1.status = 400 ∧
      (sendFriendRequest s reqUser id newId).2 = s) := by
  obtain ⟨h₁, h₂⟩ := reachable_backed s h
  obtain ⟨r, hr, hacc, hbt⟩ := h₁ a ha b hb
  have hpair := (betweenPair_eq_true a._id b r).mp hbt
  have hends := h₂ r hr
  have hsa : (User.findById s a._id).isSome = true ∧ (User.findById s b).isSome = true := by
    rcases hpair with hp | hp
    · have h1 : r.sender = a._id := congrArg Prod.fst hp
      have h2 : r.recipient = b := congrArg Prod.snd hp
      rw [← h1, ← h2]; exact hends
    · have h1 : r.sender = b := congrArg Prod.fst hp
      have h2 : r.recipient = a._id := congrArg Prod.snd hp
      rw [← h1, ← h2]; exact ⟨hends.2, hends.1⟩
  refine ⟨⟨r, hr, hacc, hpair⟩, ?_⟩
  rintro reqUser id newId (⟨hme, hcast⟩ | ⟨hme, hcast⟩)
  · exact sendFriendRequest_fails_of_request s reqUser id newId b hcast hsa.2
      ⟨r, hr, by rw [hme]; exact hbt⟩
  · refine sendFriendRequest_fails_of_request s reqUser id newId a._id hcast hsa.1
      ⟨r, hr, ?_⟩
    rw [hme, betweenPair_eq_true]
    exact hpair.symm

/-- The theorem `friends_backed_by_accepted` for Alice and her friend Bob, in the
store reached when the two sign up, Alice sends Bob a request and Bob accepts
it. -/
theorem friends_backed_by_accepted_witness :
    ∃ r ∈ (run Store.empty [signupAlice, signupBob,
        Call.sendFriendRequest (Credential.verified aliceId) bobId.toHexString firstRequestId,
        Call.acceptFriendRequest (Credential.verified bobId)
          firstRequestId.toHexString]).friendRequests,
      r.status = Status.accepted ∧ (r.pair = (aliceId, bobId) ∨ r.pair = (bobId, aliceId)) :=
  (friends_backed_by_accepted _ (reachableWithoutOnboard_run _ (by decide))
    { alice with friends := [bobId] } (by decide) bobId (by decide)).1

/-! ## Blocks that let the errors of the store through -/

theorem propagates_pure {α : Type} (a : α) : Propagates (pure a : Try α) := by
  intro w
  exact ⟨[], by simp [pure, Try.pure], fun ⟨ev, hev, _⟩ => absurd hev (List.not_mem_nil ev)⟩

theorem propagates_raise {α : Type} (e : String) : Propagates (Try.raise e : Try α) := by
  intro w
  exact ⟨[], by simp [Try.raise], fun _ => ⟨e, rfl⟩⟩

theorem propagates_await {α : Type} (kind : CallKind)
    (act : Store → Except String α × Store) : Propagates (Try.await kind act) := by
  intro w
  unfold Try.await
  cases hp : w.plan.headD none with
  | some e => exact ⟨[⟨kind, true⟩], rfl, fun _ => ⟨e, rfl⟩⟩
  | none =>
    dsimp only
    rcases hact : act w.store with ⟨r, s⟩
    cases r with
    | ok a =>
      refine ⟨[⟨kind, false⟩], rfl, ?_⟩
      rintro ⟨ev, hev, -, hr⟩
      rw [List.mem_singleton] at hev
      subst hev
      exact absurd hr (by simp)
    | error e => exact ⟨[⟨kind, true⟩], rfl, fun _ => ⟨e, rfl⟩⟩

theorem storageRaised_append {l₁ l₂ : List CallEvent} (h : StorageRaised (l₁ ++ l₂)) :
    StorageRaised l₁ ∨ StorageRaised l₂ := by
  obtain ⟨ev, hev, hk⟩ := h
  rcases List.mem_append.mp hev with h' | h'
  · exact Or.inl ⟨ev, h', hk⟩
  · exact Or.inr ⟨ev, h', hk⟩

theorem propagates_bind {α β : Type} (m : Try α) (f : α → Try β) (hm : Propagates m)
    (hf : ∀ a, Propagates (f a)) : Propagates (m >>= f) := by
  intro w
  obtain ⟨new₁, hlog₁, hraise₁⟩ := hm w
  show ∃ new, (Try.bind m f w).2.log = w.log ++ new ∧
    (StorageRaised new → ∃ e, (Try.bind m f w).1 = Except.error e)
  unfold Try.bind
  rcases hmw : m w with ⟨r, w'⟩
  rw [hmw] at hlog₁ hraise₁
  cases r with
  | error e => exact ⟨new₁, hlog₁, fun _ => ⟨e, rfl⟩⟩
  | ok a =>
    obtain ⟨new₂, hlog₂, hraise₂⟩ := hf a w'
    refine ⟨new₁ ++ new₂, ?_, ?_⟩
    · show (f a w').2.log = w.log ++ (new₁ ++ new₂)
      rw [hlog₂, hlog₁, List.append_assoc]
    · intro h
      rcases storageRaised_append h with h' | h'
      · obtain ⟨e, he⟩ := hraise₁ h'
        exact absurd he (by simp)
      · exact hraise₂ h'

theorem noStorage_pure {α : Type} (a : α) : NoStorage (pure a : Try α) := by
  intro w
  exact ⟨[], by simp [pure, Try.pure], fun ev hev => absurd hev (List.not_mem_nil ev)⟩

theorem noStorage_await {α : Type} (act : Store → Except String α × Store) :
    NoStorage (Try.await CallKind.provider act) := by
  intro w
  unfold Try.await
  cases hp : w.plan.headD none with
  | some e =>
    exact ⟨[⟨CallKind.provider, true⟩], rfl, fun ev hev => by
      rw [List.mem_singleton] at hev; rw [hev]⟩
  | none =>
    dsimp only
    rcases hact : act w.store with ⟨r, s⟩
    cases r with
    | ok a =>
      exact ⟨[⟨CallKind.provider, false⟩], rfl, fun ev hev => by
        rw [List.mem_singleton] at hev; rw [hev]⟩
    | error e =>
      exact ⟨[⟨CallKind.provider, true⟩], rfl, fun ev hev => by
        rw [List.mem_singleton] at hev; rw [hev]⟩

theorem noStorage_bind {α β : Type} (m : Try α) (f : α → Try β) (hm : NoStorage m)
    (hf : ∀ a, NoStorage (f a)) : NoStorage (m >>= f) := by
  intro w
  obtain ⟨new₁, hlog₁, hk₁⟩ := hm w
  show ∃ new, (Try.bind m f w).2.log = w.log ++ new ∧ ∀ ev ∈ new, ev.kind = CallKind.provider
  unfold Try.bind
  rcases hmw : m w with ⟨r, w'⟩
  rw [hmw] at hlog₁
  cases r with
  | error e => exact ⟨new₁, hlog₁, hk₁⟩
  | ok a =>
    obtain ⟨new₂, hlog₂, hk₂⟩ := hf a w'
    refine ⟨new₁ ++ new₂, ?_, ?_⟩
    · show (f a w').2.log = w.log ++ (new₁ ++ new₂)
      rw [hlog₂, hlog₁, List.append_assoc]
    · intro ev hev
      rcases List.mem_append.mp hev with h | h
      · exact hk₁ ev h
      · exact hk₂ ev h

theorem noStorage_tryCatch {α : Type} (m : Try α) (handler : String → Try α)
    (hm : NoStorage m) (hh : ∀ e, NoStorage (handler e)) : NoStorage (tryCatch m handler) := by
  intro w
  obtain ⟨new₁, hlog₁, hk₁⟩ := hm w
  unfold tryCatch
  rcases hmw : m w with ⟨r, w'⟩
  rw [hmw] at hlog₁
  cases r with
  | ok a => exact ⟨new₁, hlog₁, hk₁⟩
  | error e =>
    obtain ⟨new₂, hlog₂, hk₂⟩ := hh e w'
    refine ⟨new₁ ++ new₂, ?_, ?_⟩
    · show (handler e w').2.log = w.log ++ (new₁ ++ new₂)
      rw [hlog₂, hlog₁, List.append_assoc]
    · intro ev hev
      rcases List.mem_append.mp hev with h | h
      · exact hk₁ ev h
      · exact hk₂ ev h

theorem propagates_of_noStorage {α : Type} (m : Try α) (hm : NoStorage m) : Propagates m := by
  intro w
  obtain ⟨new, hlog, hk⟩ := hm w
  refine ⟨new, hlog, ?_⟩
  rintro ⟨ev, hev, hkind, -⟩
  rw [hk ev hev] at hkind
  exact absurd hkind (by decide)

theorem noStorage_upsertStreamUser (userData : StreamUser) :
    NoStorage (WithFaults.upsertStreamUser userData) := by
  unfold WithFaults.upsertStreamUser
  apply noStorage_tryCatch
  · apply noStorage_bind
    · exact noStorage_await _
    · intro _; exact noStorage_pure _
  · intro _; exact noStorage_pure _

theorem noStorage_generateStreamToken (createToken : String → Except String String)
    (userId : String) : NoStorage (WithFaults.generateStreamToken createToken userId) := by
  unfold WithFaults.generateStreamToken
  apply noStorage_tryCatch
  · apply noStorage_bind
    · exact noStorage_await _
    · intro _; exact noStorage_pure _
  · intro _; exact noStorage_pure _

theorem propagates_swallowed_upsert (userData : StreamUser) :
    Propagates (tryCatch (WithFaults.upsertStreamUser userData) (fun _ => pure none)) :=
  propagates_of_noStorage _
    (noStorage_tryCatch _ _ (noStorage_upsertStreamUser userData) (fun _ => noStorage_pure _))

theorem propagates_getRecommendedUsers (reqUser : User) :
    Propagates (WithFaults.getRecommendedUsers reqUser) := by
  unfold WithFaults.getRecommendedUsers
  exact propagates_bind _ _ (propagates_await _ _) (fun _ => propagates_pure _)

theorem propagates_getMyFriends (reqUser : User) :
    Propagates (WithFaults.getMyFriends reqUser) := by
  unfold WithFaults.getMyFriends
  refine propagates_bind _ _ (propagates_await _ _) (fun user => ?_)
  cases user with
  | none => exact propagates_raise _
  | some friends => exact propagates_pure _

theorem propagates_sendFriendRequest (reqUser : User) (id : String) (newId : ObjectId) :
    Propagates (WithFaults.sendFriendRequest reqUser id newId) := by
  unfold WithFaults.sendFriendRequest
  dsimp only
  split
  · exact propagates_pure _
  · refine propagates_bind _ _ (propagates_await _ _) (fun recipient => ?_)
    cases recipient with
    | none => exact propagates_pure _
    | some recipient =>
      dsimp only
      split
      · exact propagates_pure _
      · refine propagates_bind _ _ (propagates_await _ _) (fun existing => ?_)
        cases existing with
        | some _ => exact propagates_pure _
        | none => exact propagates_bind _ _ (propagates_await _ _) (fun _ => propagates_pure _)

theorem propagates_acceptFriendRequest (reqUser : User) (id : String) :
    Propagates (WithFaults.acceptFriendRequest reqUser id) := by
  unfold WithFaults.acceptFriendRequest
  refine propagates_bind _ _ (propagates_await _ _) (fun friendRequest => ?_)
  cases friendRequest with
  | none => exact propagates_pure _
  | some friendRequest =>
    dsimp only
    split
    · exact propagates_pure _
    · exact propagates_bind _ _ (propagates_await _ _) (fun _ =>
        propagates_bind _ _ (propagates_await _ _) (fun _ =>
          propagates_bind _ _ (propagates_await _ _) (fun _ => propagates_pure _)))

theorem propagates_getFriendRequests (reqUser : User) :
    Propagates (WithFaults.getFriendRequests reqUser) := by
  unfold WithFaults.getFriendRequests
  exact propagates_bind _ _ (propagates_await _ _) (fun _ =>
    propagates_bind _ _ (propagates_await _ _) (fun _ => propagates_pure _))

theorem propagates_getOutgoingFriendReqs (reqUser : User) :
    Propagates (WithFaults.getOutgoingFriendReqs reqUser) := by
  unfold WithFaults.getOutgoingFriendReqs
  exact propagates_bind _ _ (propagates_await _ _) (fun _ => propagates_pure _)

theorem propagates_signup (body : SignupBody) (newId : ObjectId) (rand : Fin 100)
    (passwordHash : String) : Propagates (WithFaults.signup body newId rand passwordHash) := by
  unfold WithFaults.signup
  dsimp only
  split
  · exact propagates_pure _
  · split
    · exact propagates_pure _
    · split
      · exact propagates_pure _
      · refine propagates_bind _ _ (propagates_await _ _) (fun existing => ?_)
        cases existing with
        | some _ => exact propagates_pure _
        | none =>
          exact propagates_bind _ _ (propagates_await _ _) (fun _ =>
            propagates_bind _ _ (propagates_swallowed_upsert _) (fun _ => propagates_pure _))

theorem propagates_login (compare : String → String → Bool) (body : LoginBody) :
    Propagates (WithFaults.login compare body) := by
  unfold WithFaults.login
  split
  · exact propagates_pure _
  · refine propagates_bind _ _ (propagates_await _ _) (fun user => ?_)
    cases user with
    | none => exact propagates_pure _
    | some user =>
      dsimp only
      split <;> exact propagates_pure _

theorem propagates_onboard (reqUser : User) (body : OnboardBody) :
    Propagates (WithFaults.onboard reqUser body) := by
  unfold WithFaults.onboard
  dsimp only
  split
  · exact propagates_pure _
  · refine propagates_bind _ _ (propagates_await _ _) (fun updatedUser => ?_)
    cases updatedUser with
    | none => exact propagates_pure _
    | some updatedUser =>
      exact propagates_bind _ _ (propagates_swallowed_upsert _) (fun _ => propagates_pure _)

theorem propagates_getStreamToken (createToken : String → Except String String)
    (reqUser : User) : Propagates (WithFaults.getStreamToken createToken reqUser) := by
  unfold WithFaults.getStreamToken
  exact propagates_bind _ _
    (propagates_of_noStorage _ (noStorage_generateStreamToken _ _)) (fun _ => propagates_pure _)

theorem propagates_protectRoute (cred : Credential) :
    Propagates (WithFaults.protectRoute cred) := by
  unfold WithFaults.protectRoute
  cases cred with
  | absent => exact propagates_pure _
  | rejected => exact propagates_raise _
  | verified userId =>
    refine propagates_bind _ _ (propagates_await _ _) (fun user => ?_)
    cases user with
    | none => exact propagates_pure _
    | some user => exact propagates_pure _

/-- A controller whose `try` block lets the errors of the store through sends
what its `catch` block sends whenever a call to the store raised. -/
theorem respond_of_storageRaised {α : Type} (onError : α) (body : Try α)
    (hbody : Propagates body) (s : Store) (plan : List (Option String))
    (h : StorageRaised (respond onError body s plan).log) :
    (respond onError body s plan).result = onError := by
  obtain ⟨new, hlog, hraise⟩ := hbody ⟨s, plan, []⟩
  rcases hb : body ⟨s, plan, []⟩ with ⟨r, w⟩
  rw [hb] at hlog hraise
  unfold respond at h ⊢
  rw [hb] at h ⊢
  cases r with
  | error e => rfl
  | ok a =>
    have hnew : w.log = new := by simpa using hlog
    have h' : StorageRaised w.log := h
    rw [hnew] at h'
    obtain ⟨e, he⟩ := hraise h'
    exact absurd he (by simp)

/-! ## Without faults the explicit controllers are the controllers -/

theorem bind_apply {α β : Type} (m : Try α) (f : α → Try β) (w : World) :
    (m >>= f) w = match m w with
      | (Except.ok a, w') => f a w'
      | (Except.error e, w') => (Except.error e, w') := rfl

theorem pure_apply {α : Type} (a : α) (w : World) : (pure a : Try α) w = (Except.ok a, w) := rfl

theorem await_nil {α : Type} (kind : CallKind) (act : Store → Except String α × Store)
    (s : Store) (log : List CallEvent) :
    Try.await kind act ⟨s, [], log⟩ = match act s with
      | (Except.ok a, t) => (Except.ok a, ⟨t, [], log ++ [⟨kind, false⟩]⟩)
      | (Except.error e, t) => (Except.error e, ⟨t, [], log ++ [⟨kind, true⟩]⟩) := rfl

theorem sendFriendRequest_refines (s : Store) (reqUser : User) (id : String)
    (newId : ObjectId) :
    (respond internalServerError (WithFaults.sendFriendRequest reqUser id newId) s []).result =
      (sendFriendRequest s reqUser id newId).1 ∧
    (respond internalServerError (WithFaults.sendFriendRequest reqUser id newId) s []).store =
      (sendFriendRequest s reqUser id newId).2 := by
  unfold respond WithFaults.sendFriendRequest sendFriendRequest
  by_cases hself : reqUser.id = id
  · simp [hself, pure_apply]
  · cases hc : castObjectId id with
    | none => simp [hself, hc, bind_apply, await_nil, queryById, pure_apply]
    | some recipientId =>
      cases hr : User.findById s recipientId with
      | none => simp [hself, hc, hr, bind_apply, await_nil, queryById, pure_apply]
      | some recipient =>
        by_cases hinc : includes recipient.friends reqUser.id = true
        · simp [hself, hc, hr, hinc, bind_apply, await_nil, queryById, pure_apply]
        · cases hf : s.friendRequests.find? (betweenPair reqUser._id recipientId) with
          | some q =>
            simp [hself, hc, hr, hinc, hf, bind_apply, await_nil, queryById, pure_apply]
          | none =>
            by_cases hany : s.friendRequests.any (fun r => decide (r._id = newId)) = true
            · have hany' : ∃ x ∈ s.friendRequests, x._id = newId := by simpa using hany
              simp [hself, hc, hr, hinc, hf, hany', bind_apply, await_nil, queryById,
                pure_apply]
            · have hany' : ¬ ∃ x ∈ s.friendRequests, x._id = newId := by simpa using hany
              simp [hself, hc, hr, hinc, hf, hany', bind_apply, await_nil, queryById,
                pure_apply]

theorem tryCatch_apply {α : Type} (m : Try α) (handler : String → Try α) (w : World) :
    tryCatch m handler w = match m w with
      | (Except.ok a, w') => (Except.ok a, w')
      | (Except.error e, w') => handler e w' := rfl

theorem acceptFriendRequest_refines (s : Store) (reqUser : User) (id : String) :
    (respond internalServerError (WithFaults.acceptFriendRequest reqUser id) s []).result =
      (acceptFriendRequest s reqUser id).1 ∧
    (respond internalServerError (WithFaults.acceptFriendRequest reqUser id) s []).store =
      (acceptFriendRequest s reqUser id).2 := by
  unfold respond WithFaults.acceptFriendRequest acceptFriendRequest
  cases hc : castObjectId id with
  | none => simp [hc, bind_apply, await_nil, queryById, pure_apply]
  | some requestId =>
    cases hr : FriendRequest.findById s requestId with
    | none => simp [hc, hr, bind_apply, await_nil, queryById, pure_apply]
    | some friendRequest =>
      have hid : friendRequest._id = requestId := by
        have := List.find?_some hr
        simpa using this
      by_cases hme : friendRequest.recipient.toHexString = reqUser.id
      · simp [hc, hr, hme, hid, bind_apply, await_nil, queryById, write, pure_apply]
      · simp [hc, hr, hme, bind_apply, await_nil, queryById, pure_apply]

theorem queries_refine (s : Store) (reqUser : User) :
    ((respond internalServerError (WithFaults.getRecommendedUsers reqUser) s []).result,
      (respond internalServerError (WithFaults.getRecommendedUsers reqUser) s []).store) =
      getRecommendedUsers s reqUser ∧
    ((respond internalServerError (WithFaults.getMyFriends reqUser) s []).result,
      (respond internalServerError (WithFaults.getMyFriends reqUser) s []).store) =
      getMyFriends s reqUser ∧
    ((respond internalServerError (WithFaults.getFriendRequests reqUser) s []).result,
      (respond internalServerError (WithFaults.getFriendRequests reqUser) s []).store) =
      getFriendRequests s reqUser ∧
    ((respond internalServerError (WithFaults.getOutgoingFriendReqs reqUser) s []).result,
      (respond internalServerError (WithFaults.getOutgoingFriendReqs reqUser) s []).store) =
      getOutgoingFriendReqs s reqUser := by
  refine ⟨rfl, ?_, rfl, rfl⟩
  unfold respond WithFaults.getMyFriends getMyFriends
  cases hu : User.findById s reqUser._id with
  | none => simp [hu, bind_apply, await_nil, query, Try.raise]
  | some user => simp [hu, bind_apply, await_nil, query, pure_apply]

theorem upsert_nil (userData : StreamUser) (s : Store) (log : List CallEvent) :
    tryCatch (WithFaults.upsertStreamUser userData) (fun _ => pure none) ⟨s, [], log⟩ =
      (Except.ok (some userData), ⟨s, [], log ++ [⟨CallKind.provider, false⟩]⟩) := rfl

theorem signup_refines (s : Store) (body : SignupBody) (newId : ObjectId) (rand : Fin 100)
    (passwordHash : String) (providerOk : Bool) :
    ((respond internalServerFailure (WithFaults.signup body newId rand passwordHash) s []).result,
      (respond internalServerFailure (WithFaults.signup body newId rand passwordHash) s []).store)
      = signup s body newId rand passwordHash providerOk := by
  unfold respond WithFaults.signup signup
  by_cases h₁ : (falsy body.email || falsy body.password || falsy body.fullName) = true
  · simp only [if_pos h₁]; rfl
  · simp only [if_neg h₁]
    by_cases h₂ : jsLength (body.password.getD "") < 8
    · simp only [if_pos h₂]; rfl
    · simp only [if_neg h₂]
      by_cases h₃ : (!emailRegexTest (body.email.getD "")) = true
      · simp only [if_pos h₃]; rfl
      · simp only [if_neg h₃, bind_apply, await_nil, query]
        cases h₄ : s.users.find? (fun u => decide (u.email = body.email.getD "")) with
        | some u => rfl
        | none =>
          simp only [bind_apply, await_nil]
          by_cases h₅ : (s.users.any (fun u => decide (u.fullName = body.fullName.getD "") ||
              decide (u._id = newId))) = true
          · simp only [if_pos h₅]
          · simp only [if_neg h₅, upsert_nil, pure_apply]
            cases providerOk <;> rfl

theorem onboard_refines (s : Store) (reqUser : User) (body : OnboardBody)
    (providerOk : Bool) :
    ((respond internalServerFailure (WithFaults.onboard reqUser body) s []).result,
      (respond internalServerFailure (WithFaults.onboard reqUser body) s []).store)
      = onboard s reqUser body providerOk := by
  unfold respond WithFaults.onboard onboard
  by_cases h₁ : (falsy body.fullName || falsy body.bio || falsy body.nativeLanguage ||
      falsy body.learningLanguage || falsy body.location) = true
  · simp only [if_pos h₁]; rfl
  · simp only [if_neg h₁, bind_apply, await_nil]
    cases h₂ : castFriends body.friends with
    | none => rfl
    | some friends =>
      simp only
      cases h₃ : User.findById s reqUser._id with
      | none => rfl
      | some user =>
        simp only
        by_cases h₄ : (s.users.any (fun v => decide (v._id ≠ reqUser._id) &&
            (decide (v.fullName = (applyOnboardUpdate user body friends).fullName) ||
              (body.email.isSome &&
                decide (v.email = (applyOnboardUpdate user body friends).email))))) = true
        · simp only [if_pos h₄]
        · simp only [if_neg h₄, bind_apply, upsert_nil, pure_apply]
          cases providerOk <;> rfl

theorem getStreamToken_refines (createToken : String → Except String String)
    (reqUser : User) (s : Store) :
    (respond internalServerError (WithFaults.getStreamToken createToken reqUser) s []).result =
      getStreamToken createToken reqUser ∧
    (respond internalServerError (WithFaults.getStreamToken createToken reqUser) s []).store =
      s := by
  unfold respond WithFaults.getStreamToken WithFaults.generateStreamToken getStreamToken
    generateStreamToken
  simp only [bind_apply, tryCatch_apply, await_nil]
  cases createToken reqUser.id with
  | ok token => exact ⟨rfl, rfl⟩
  | error e => exact ⟨rfl, rfl⟩

theorem protectRoute_refines (s : Store) (cred : Credential) :
    (respond (Except.error internalServerError) (WithFaults.protectRoute cred) s []).result =
      protectRoute s cred ∧
    (respond (Except.error internalServerError) (WithFaults.protectRoute cred) s []).store =
      s := by
  unfold respond WithFaults.protectRoute protectRoute
  cases cred with
  | absent => exact ⟨rfl, rfl⟩
  | rejected => exact ⟨rfl, rfl⟩
  | verified userId =>
    simp only [bind_apply, await_nil, query]
    cases User.findById s userId with
    | none => exact ⟨rfl, rfl⟩
    | some user => exact ⟨rfl, rfl⟩

/-! ## C26: what a raising call leads to -/

/-- C26, as stated, fails for the calls to the chat provider: during the signup
of Alice the two calls to the store return and the provider call raises, and
the answer is 201 with the user stored, not 500. -/
theorem provider_failure_counterexample :
    (respond internalServerFailure
      (WithFaults.signup ⟨some "alice@example.com", some "password", some "Alice"⟩ aliceId 0
        "hashA") Store.empty [none, none, some "provider down"]).log =
      [⟨CallKind.storage, false⟩, ⟨CallKind.storage, false⟩, ⟨CallKind.provider, true⟩] ∧
    (respond internalServerFailure
      (WithFaults.signup ⟨some "alice@example.com", some "password", some "Alice"⟩ aliceId 0
        "hashA") Store.empty [none, none, some "provider down"]).result =
      ⟨201, Body.created alice "User created successfully"⟩ ∧
    (respond internalServerFailure
      (WithFaults.signup ⟨some "alice@example.com", some "password", some "Alice"⟩ aliceId 0
        "hashA") Store.empty [none, none, some "provider down"]).store = ⟨[alice], []⟩ := by
  decide

/-- C26, amended: for each of the eleven operations, on every store, request
and plan of faults, whenever a call to the store raised while the operation
ran, the operation answers 500 with the message `Internal Server Error`,
whatever the error was (for `protectRoute`: it sends that answer and does not
attach a user). The operations are total functions of the store, the request
and the plan: no error leaves them. -/
theorem storage_failure_is_internal :
    (∀ reqUser s plan,
      StorageRaised (respond internalServerError
        (WithFaults.getRecommendedUsers reqUser) s plan).log →
      (respond internalServerError (WithFaults.getRecommendedUsers reqUser) s plan).result =
        ⟨500, Body.message "Internal Server Error"⟩) ∧
    (∀ reqUser s plan,
      StorageRaised (respond internalServerError (WithFaults.getMyFriends reqUser) s plan).log →
      (respond internalServerError (WithFaults.getMyFriends reqUser) s plan).result =
        ⟨500, Body.message "Internal Server Error"⟩) ∧
    (∀ reqUser id newId s plan,
      StorageRaised (respond internalServerError
        (WithFaults.sendFriendRequest reqUser id newId) s plan).log →
      (respond internalServerError (WithFaults.sendFriendRequest reqUser id newId) s plan).result =
        ⟨500, Body.message "Internal Server Error"⟩) ∧
    (∀ reqUser id s plan,
      StorageRaised (respond internalServerError
        (WithFaults.acceptFriendRequest reqUser id) s plan).log →
      (respond internalServerError (WithFaults.acceptFriendRequest reqUser id) s plan).result =
        ⟨500, Body.message "Internal Server Error"⟩) ∧
    (∀ reqUser s plan,
      StorageRaised (respond internalServerError
        (WithFaults.getFriendRequests reqUser) s plan).log →
      (respond internalServerError (WithFaults.getFriendRequests reqUser) s plan).result =
        ⟨500, Body.message "Internal Server Error"⟩) ∧
    (∀ reqUser s plan,
      StorageRaised (respond internalServerError
        (WithFaults.getOutgoingFriendReqs reqUser) s plan).log →
      (respond internalServerError (WithFaults.getOutgoingFriendReqs reqUser) s plan).result =
        ⟨500, Body.message "Internal Server Error"⟩) ∧
    (∀ body newId rand passwordHash s plan,
      StorageRaised (respond internalServerFailure
        (WithFaults.signup body newId rand passwordHash) s plan).log →
      (respond internalServerFailure
        (WithFaults.signup body newId rand passwordHash) s plan).result =
        ⟨500, Body.failure "Internal Server Error"⟩) ∧
    (∀ compare body s plan,
      StorageRaised (respond internalServerFailure (WithFaults.login compare body) s plan).log →
      (respond internalServerFailure (WithFaults.login compare body) s plan).result =
        ⟨500, Body.failure "Internal Server Error"⟩) ∧
    (∀ reqUser body s plan,
      StorageRaised (respond internalServerFailure (WithFaults.onboard reqUser body) s plan).log →
      (respond internalServerFailure (WithFaults.onboard reqUser body) s plan).result =
        ⟨500, Body.failure "Internal Server Error"⟩) ∧
    (∀ createToken reqUser s plan,
      StorageRaised (respond internalServerError
        (WithFaults.getStreamToken createToken reqUser) s plan).log →
      (respond internalServerError (WithFaults.getStreamToken createToken reqUser) s plan).result =
        ⟨500, Body.message "Internal Server Error"⟩) ∧
    (∀ cred s plan,
      StorageRaised (respond (Except.error internalServerError)
        (WithFaults.protectRoute cred) s plan).log →
      (respond (Except.error internalServerError) (WithFaults.protectRoute cred) s plan).result =
        Except.error ⟨500, Body.message "Internal Server Error"⟩) :=
  ⟨fun reqUser => respond_of_storageRaised _ _ (propagates_getRecommendedUsers reqUser),
    fun reqUser => respond_of_storageRaised _ _ (propagates_getMyFriends reqUser),
    fun reqUser id newId =>
      respond_of_storageRaised _ _ (propagates_sendFriendRequest reqUser id newId),
    fun reqUser id => respond_of_storageRaised _ _ (propagates_acceptFriendRequest reqUser id),
    fun reqUser => respond_of_storageRaised _ _ (propagates_getFriendRequests reqUser),
    fun reqUser => respond_of_storageRaised _ _ (propagates_getOutgoingFriendReqs reqUser),
    fun body newId rand passwordHash =>
      respond_of_storageRaised _ _ (propagates_signup body newId rand passwordHash),
    fun compare body => respond_of_storageRaised _ _ (propagates_login compare body),
    fun reqUser body => respond_of_storageRaised _ _ (propagates_onboard reqUser body),
    fun createToken reqUser =>
      respond_of_storageRaised _ _ (propagates_getStreamToken createToken reqUser),
    fun cred => respond_of_storageRaised _ _ (propagates_protectRoute cred)⟩

/-- The theorem `storage_failure_is_internal` when Bob accepts the request of
Alice and the second update of the store raises: the answer is 500, after the
request was saved as accepted and the first friends set was written. -/
theorem storage_failure_is_internal_witness :
    (respond internalServerError
      (WithFaults.acceptFriendRequest bob firstRequestId.toHexString) requestSent
      [none, none, none, some "connection lost"]).result =
      ⟨500, Body.message "Internal Server Error"⟩ :=
  storage_failure_is_internal.2.2.2.1 bob firstRequestId.toHexString requestSent
    [none, none, none, some "connection lost"] ⟨⟨CallKind.storage, true⟩, by decide, rfl, rfl⟩

end WordyBirdy
